import Mathlib

/-!
Shallow embedding of the particles-2d simulation engine (src/index.ts).

Modelling conventions:

* JavaScript floating-point numbers are modelled as exact real numbers (ℝ).
* Randomness: each call to a random primitive (`randomBetween`,
  `randomIntBetween`, `cltRandomInt`) consumes one value from an arbitrary
  fixed stream `Env.rng : ℕ → ℝ`; the current stream index is threaded
  through every state-changing operation.  The drawn values are left
  completely unconstrained (integer-producing primitives are modelled by
  flooring the drawn value), which over-approximates the primitives' actual
  ranges, so theorems quantified over all environments cover every possible
  behaviour of the original code.
* The geometry helpers imported from @basementuniverse/intersection-helpers
  (`aabb`, `pointInAABB`, `pointInCircle`, `pointInRectangle`,
  `pointInPolygon`) and `vectorAlmostZero` are external npm dependencies
  whose sources are not part of this repository; they are supplied as
  components of `Env` (an arbitrary implementation), with a spec-modelled
  instance `specAabb` used for concrete witnesses.
* User-supplied callbacks (a particle's custom `update` hook, a force
  field's `customForce`) are modelled as pure functions on the particle's
  public mutable state (`PubState`): in TypeScript they can reassign the
  public fields but cannot touch the private `_disposed` flag, the private
  trail buffer or the private cached rotation.
* Rendering code (canvas drawing, colour-string preparation, glow/fade
  painting) only writes to the canvas context and never feeds back into
  simulation state; it is not modelled, except that the set of particles
  `ParticleSystem.draw` draws is modelled as `systemDrawList`.
-/

namespace P2

noncomputable section

/-- 2D vector (`vec2` from @basementuniverse/vec). -/
structure Vec2 where
  x : ℝ
  y : ℝ

/-- vec2.add -/
def Vec2.add (a b : Vec2) : Vec2 := ⟨a.x + b.x, a.y + b.y⟩

/-- vec2.sub -/
def Vec2.sub (a b : Vec2) : Vec2 := ⟨a.x - b.x, a.y - b.y⟩

/-- vec2.scale -/
def Vec2.scale (a : Vec2) (c : ℝ) : Vec2 := ⟨a.x * c, a.y * c⟩

/-- vec2.dot -/
def Vec2.dot (a b : Vec2) : ℝ := a.x * b.x + a.y * b.y

/-- vec2.len, the Euclidean magnitude. -/
def Vec2.len (a : Vec2) : ℝ := Real.sqrt (a.x ^ 2 + a.y ^ 2)

/-- vec2.nor: normalise, returning the zero vector when the length is zero
(the library guards against a falsy length). -/
def Vec2.nor (a : Vec2) : Vec2 :=
  if Vec2.len a = 0 then ⟨0, 0⟩ else ⟨a.x / Vec2.len a, a.y / Vec2.len a⟩

/-- vec2.rot: rotate by an angle in radians. -/
def Vec2.rot (a : Vec2) (r : ℝ) : Vec2 :=
  ⟨a.x * Real.cos r - a.y * Real.sin r, a.x * Real.sin r + a.y * Real.cos r⟩

/-- vec2.rad: Math.atan2(y, x), i.e. the argument of x + y·i. -/
def Vec2.rad (a : Vec2) : ℝ := Complex.arg ⟨a.x, a.y⟩

/-- distance from @basementuniverse/intersection-helpers: Euclidean distance. -/
def distance (a b : Vec2) : ℝ := Vec2.len (Vec2.sub b a)

/-- A particle's `useAttractors` / `useForceFields` / `useColliders` /
`useSinks` setting: `boolean | string | string[]`. -/
inductive UseSetting where
  | bool (b : Bool)
  | str (s : String)
  | strs (l : List String)
deriving DecidableEq

/-- shouldUseElement: whether a particle should be affected by an element
with the given optional id, under the given use setting. -/
def shouldUseElement : UseSetting → Option String → Bool
  | .bool false, _ => false
  | .bool true, _ => true
  | .str s, elementId => elementId == some s
  | .strs l, elementId =>
      match elementId with
      | none => false
      | some x => l.contains x

/-- The four default update phases of a particle. -/
inductive UpdateType where
  | age
  | physics
  | direction
  | position
deriving DecidableEq

/-- PARTICLE_DEFAULT_UPDATE_TYPES -/
def particleDefaultUpdateTypes : List UpdateType := [.age, .physics, .direction, .position]

/-- A particle's `defaultUpdates` option: `'none' | 'all' | UpdateType[]`. -/
inductive UpdatesSpec where
  | noneU
  | allU
  | list (l : List UpdateType)

/-- prepareDefaultUpdates: `'all'` yields the full list, any other
non-array value yields the empty list, an array is filtered to known
update types. -/
def prepareDefaultUpdates : UpdatesSpec → List UpdateType
  | .allU => particleDefaultUpdateTypes
  | .noneU => []
  | .list l => l.filter (fun u => particleDefaultUpdateTypes.contains u)

/-- FadeStyle ({in, out} in seconds; rendering-only data). -/
structure FadeStyle where
  fadeIn : ℝ
  fadeOut : ℝ

/-- TrailStyle (colour fields are rendering-only and omitted). -/
structure TrailStyle where
  length : ℝ
  width : Option ℝ
  widthDecay : Option ℝ
  alphaDecay : Option ℝ
  decayTime : Option ℝ

/-- ParticleStyle.  The style discriminant (dot / radial / line / image),
colours and glow configure rendering only and never feed back into the
update pipeline; the parts that do affect `update` (the trail
configuration) are kept. -/
structure Style where
  fade : Option FadeStyle
  trail : Option TrailStyle

/-- One entry of a particle's private trail buffer. -/
structure TrailSegment where
  position : Vec2
  age : ℝ
  speed : ℝ

/-- The public mutable state of a particle, as visible to user-supplied
hooks (the private `_disposed`, cached rotation and trail buffer are not
reachable from TypeScript client code). -/
structure PubState where
  position : Vec2
  velocity : Vec2
  size : Vec2
  rotation : Option ℝ
  age : ℝ
  lifespan : ℝ

/-- ParticleOptions (the rendering-only `defaultDraws`, `preDraw` and
`postDraw` members are omitted). -/
structure ParticleOptions where
  useAttractors : UseSetting
  useForceFields : UseSetting
  useColliders : UseSetting
  useSinks : UseSetting
  maxSpeed : ℝ
  defaultUpdates : UpdatesSpec
  update : Option (PubState → ℝ → PubState)

/-- DEFAULT_PARTICLE_OPTIONS -/
def defaultParticleOptions : ParticleOptions :=
  { useAttractors := .bool true
    useForceFields := .bool true
    useColliders := .bool true
    useSinks := .bool true
    maxSpeed := -1
    defaultUpdates := .allU
    update := none }

/-- Particle.  `rotation = none` models the null rotation (derive from
velocity); `style = none` models a null style. -/
structure Particle where
  position : Vec2
  velocity : Vec2
  size : Vec2
  rotation : Option ℝ
  age : ℝ
  lifespan : ℝ
  style : Option Style
  actualRotation : ℝ
  trailSegments : List TrailSegment
  options : ParticleOptions
  _disposed : Bool

/-- Particle.disposed getter. -/
def Particle.disposed (p : Particle) : Bool := p._disposed

instance : Inhabited Particle :=
  ⟨⟨⟨0, 0⟩, ⟨0, 0⟩, ⟨0, 0⟩, none, 0, 0, none, 0, [],
    ⟨.bool true, .bool true, .bool true, .bool true, -1, .allU, none⟩, false⟩⟩

/-- Apply a user hook (restricted to the public state) to a particle,
keeping the private fields. -/
def applyPub (p : Particle) (f : PubState → ℝ → PubState) (dt : ℝ) : Particle :=
  let s := f ⟨p.position, p.velocity, p.size, p.rotation, p.age, p.lifespan⟩ dt
  { p with
    position := s.position
    velocity := s.velocity
    size := s.size
    rotation := s.rotation
    age := s.age
    lifespan := s.lifespan }

/-- Attractor.  `lifespan = -1` means infinite. -/
structure Attractor where
  position : Vec2
  range : ℝ
  force : ℝ
  falloff : ℝ
  lifespan : ℝ
  id : Option String
  age : ℝ
  _disposed : Bool

/-- Attractor.disposed getter. -/
def Attractor.disposed (a : Attractor) : Bool := a._disposed

/-- Attractor.applyForce: no-op beyond `range`; otherwise add
`direction * force / safeDistance^falloff * max(0, 1-(d/range)^2) * dt`
to the particle's velocity, where `safeDistance = max(d, 1)`. -/
def Attractor.applyForce (a : Attractor) (p : Particle) (dt : ℝ) : Particle :=
  let d := distance a.position p.position
  if d > a.range then p
  else
    let minDistance : ℝ := 1
    let safeDistance := max d minDistance
    let direction := Vec2.sub a.position p.position
    let normalizedDirection := Vec2.nor direction
    let distanceFactor := 1 / safeDistance ^ a.falloff
    let rangeFactor := d / a.range
    let rangeFalloff := max 0 (1 - rangeFactor * rangeFactor)
    let finalForceStrength := a.force * distanceFactor * rangeFalloff
    let forceVector := Vec2.scale normalizedDirection finalForceStrength
    { p with velocity := Vec2.add p.velocity (Vec2.scale forceVector dt) }

/-- Attractor.update: age, and dispose when a finite lifespan is reached. -/
def Attractor.update (a : Attractor) (dt : ℝ) : Attractor :=
  let a := { a with age := a.age + dt }
  if a.lifespan ≠ -1 ∧ a.age ≥ a.lifespan then { a with _disposed := true } else a

/-- The part of a force field a custom force function can read (its base
force vector and age; `customForceParams` are captured inside the
function's closure). -/
structure FFView where
  force : Vec2
  age : ℝ

/-- ForceField.  A `customForce` (either a named built-in algorithm or a
user callback) is modelled as an opaque function of the force field's
view and the particle's public state. -/
structure ForceField where
  force : Vec2
  lifespan : ℝ
  customForce : Option (FFView → PubState → ℝ → PubState)
  id : Option String
  age : ℝ
  _disposed : Bool

/-- ForceField.disposed getter. -/
def ForceField.disposed (f : ForceField) : Bool := f._disposed

/-- ForceField.applyForce: run the custom force if there is one, otherwise
add `force * dt` to the particle's velocity. -/
def ForceField.applyForce (f : ForceField) (p : Particle) (dt : ℝ) : Particle :=
  match f.customForce with
  | some g => applyPub p (g ⟨f.force, f.age⟩) dt
  | none => { p with velocity := Vec2.add p.velocity (Vec2.scale f.force dt) }

/-- ForceField.update: age, and dispose when a finite lifespan is reached. -/
def ForceField.update (f : ForceField) (dt : ℝ) : ForceField :=
  let f := { f with age := f.age + dt }
  if f.lifespan ≠ -1 ∧ f.age ≥ f.lifespan then { f with _disposed := true } else f

/-- A sink's mode. -/
inductive SinkMode where
  | instant
  | fade
deriving DecidableEq

/-- Sink. -/
structure Sink where
  position : Vec2
  range : ℝ
  strength : ℝ
  falloff : ℝ
  mode : SinkMode
  lifespan : ℝ
  id : Option String
  age : ℝ
  _disposed : Bool

/-- Sink.disposed getter. -/
def Sink.disposed (s : Sink) : Bool := s._disposed

/-- Sink.affect: no-op beyond `range`; in `instant` mode set the particle's
age to its lifespan; in `fade` mode add
`strength / safeDistance^falloff * max(0, 1-(d/range)^2) * dt` to the
particle's age. -/
def Sink.affect (s : Sink) (p : Particle) (dt : ℝ) : Particle :=
  let d := distance s.position p.position
  if d > s.range then p
  else
    match s.mode with
    | .instant => { p with age := p.lifespan }
    | .fade =>
      let minDistance : ℝ := 1
      let safeDistance := max d minDistance
      let distanceFactor := 1 / safeDistance ^ s.falloff
      let rangeFactor := d / s.range
      let rangeFalloff := max 0 (1 - rangeFactor * rangeFactor)
      let agingMultiplier := s.strength * distanceFactor * rangeFalloff
      { p with age := p.age + agingMultiplier * dt }

/-- Sink.update: age, and dispose when a finite lifespan is reached. -/
def Sink.update (s : Sink) (dt : ℝ) : Sink :=
  let s := { s with age := s.age + dt }
  if s.lifespan ≠ -1 ∧ s.age ≥ s.lifespan then { s with _disposed := true } else s

/-- ColliderGeometry: circle, rectangle (with optional rotation) or
polygon. -/
inductive ColliderGeometry where
  | circle (position : Vec2) (radius : ℝ)
  | rectangle (position : Vec2) (size : Vec2) (rotation : Option ℝ)
  | polygon (vertices : List Vec2)

/-- Collider (no age, lifespan or disposed flag: colliders are static). -/
structure Collider where
  geometry : ColliderGeometry
  restitution : ℝ
  friction : ℝ
  randomness : ℝ
  id : Option String

/-- An axis-aligned bounding box as used by the external helper library. -/
structure AABB where
  position : Vec2
  size : Vec2

/-- Result shape of the external pointInCircle / pointInRectangle /
pointInPolygon helpers. -/
structure IntersectionResult where
  intersects : Bool
  closestPoint : Vec2
  dist : ℝ
  normal : Option Vec2

/-- The environment: an arbitrary pre-determined stream of random draws,
plus implementations of the external geometry helpers from
@basementuniverse/intersection-helpers (whose sources are not in this
repository). -/
structure Env where
  rng : ℕ → ℝ
  almostZero : Vec2 → Bool
  aabb : ColliderGeometry → Option AABB
  pointInAABB : Vec2 → AABB → Bool
  pointInCircle : Vec2 → Vec2 → ℝ → Option IntersectionResult
  pointInRectangle : Vec2 → Vec2 → Vec2 → ℝ → Option IntersectionResult
  pointInPolygon : Vec2 → List Vec2 → Option IntersectionResult

/-- Consume one random draw as a real number (randomBetween). -/
def drawReal (env : Env) (i : ℕ) : ℝ × ℕ := (env.rng i, i + 1)

/-- Consume one random draw as an integer (randomIntBetween / cltRandomInt). -/
def drawInt (env : Env) (i : ℕ) : ℤ × ℕ := (⌊env.rng i⌋, i + 1)

/-- The narrow-phase dispatch of Collider.handleCollision (the switch on
the geometry type). -/
def narrowPhase (env : Env) (g : ColliderGeometry) (pos : Vec2) : Option IntersectionResult :=
  match g with
  | .circle c r => env.pointInCircle pos c r
  | .rectangle c sz rot => env.pointInRectangle pos c sz (rot.getD 0)
  | .polygon vs => env.pointInPolygon pos vs

/-- Collider.handleCollision: broad-phase AABB rejection (a `none` AABB
signals invalid geometry and short-circuits), narrow-phase dispatch, then
impulse response: reject if the velocity points away from the surface,
otherwise apply a `(1+restitution)`-scaled normal impulse, an optional
random rotation, and a friction impulse against the tangential
component. -/
def Collider.handleCollision (env : Env) (c : Collider) (p : Particle) (i : ℕ) :
    Particle × ℕ :=
  match env.aabb c.geometry with
  | none => (p, i)
  | some geometryAABB =>
    if env.pointInAABB p.position geometryAABB = false then (p, i)
    else
      match narrowPhase env c.geometry p.position with
      | none => (p, i)
      | some collisionResult =>
        if collisionResult.intersects = false then (p, i)
        else
          let normal := collisionResult.normal.getD ⟨0, 0⟩
          let relativeVelocity := Vec2.sub p.velocity ⟨0, 0⟩
          let velocityAlongNormal := Vec2.dot relativeVelocity normal
          if velocityAlongNormal > 0 then (p, i)
          else
            let impulseMagnitude := -(1 + c.restitution) * velocityAlongNormal
            let impulse := Vec2.scale normal impulseMagnitude
            let v₁ := Vec2.add p.velocity impulse
            let vi : Vec2 × ℕ :=
              if c.randomness > 0 then (Vec2.rot v₁ (env.rng i), i + 1) else (v₁, i)
            let frictionImpulse :=
              Vec2.scale (Vec2.sub relativeVelocity (Vec2.scale normal velocityAlongNormal))
                (-c.friction)
            ({ p with velocity := Vec2.add vi.1 frictionImpulse }, vi.2)

/-- The four field-entity collections a particle's physics phase reads
(the system state as seen by Particle.update). -/
structure FieldCtx where
  attractors : List Attractor
  forceFields : List ForceField
  sinks : List Sink
  colliders : List Collider

/-- The attractor loop of the physics phase: every non-disposed attractor
passing the use-setting filter applies its force in collection order. -/
def attractorLoop (use : UseSetting) (dt : ℝ) : List Attractor → Particle → Particle
  | [], p => p
  | a :: as, p =>
    attractorLoop use dt as
      (if a.disposed = false ∧ shouldUseElement use a.id = true then a.applyForce p dt else p)

/-- The force-field loop of the physics phase. -/
def forceFieldLoop (use : UseSetting) (dt : ℝ) : List ForceField → Particle → Particle
  | [], p => p
  | f :: fs, p =>
    forceFieldLoop use dt fs
      (if f.disposed = false ∧ shouldUseElement use f.id = true then f.applyForce p dt else p)

/-- The sink loop of the physics phase. -/
def sinkLoop (use : UseSetting) (dt : ℝ) : List Sink → Particle → Particle
  | [], p => p
  | s :: ss, p =>
    sinkLoop use dt ss
      (if s.disposed = false ∧ shouldUseElement use s.id = true then s.affect p dt else p)

/-- The collider loop of the physics phase (colliders have no disposed
flag; the loop is filtered only by the use setting). -/
def colliderLoop (env : Env) (use : UseSetting) : List Collider → Particle → ℕ → Particle × ℕ
  | [], p, i => (p, i)
  | c :: cs, p, i =>
    let r := if shouldUseElement use c.id = true then c.handleCollision env p i else (p, i)
    colliderLoop env use cs r.1 r.2

/-- The final velocity clamp of the physics phase: only applied when
`maxSpeed > 0` and the current speed exceeds it. -/
def maxSpeedClamp (maxSpeed : ℝ) (v : Vec2) : Vec2 :=
  if maxSpeed > 0 then
    (if Vec2.len v > maxSpeed then Vec2.scale (Vec2.nor v) maxSpeed else v)
  else v

/-- The physics phase of Particle.update: attractors, force fields, sinks,
colliders (each loop guarded by its use setting, skipped entirely when the
setting is literally `false`), then the maxSpeed clamp. -/
def physicsPhase (env : Env) (ctx : FieldCtx) (p : Particle) (dt : ℝ) (i : ℕ) :
    Particle × ℕ :=
  let p₁ :=
    if p.options.useAttractors ≠ .bool false then
      attractorLoop p.options.useAttractors dt ctx.attractors p
    else p
  let p₂ :=
    if p.options.useForceFields ≠ .bool false then
      forceFieldLoop p.options.useForceFields dt ctx.forceFields p₁
    else p₁
  let p₃ :=
    if p.options.useSinks ≠ .bool false then
      sinkLoop p.options.useSinks dt ctx.sinks p₂
    else p₂
  let pi₄ :=
    if p.options.useColliders ≠ .bool false then
      colliderLoop env p.options.useColliders ctx.colliders p₃ i
    else (p₃, i)
  ({ pi₄.1 with velocity := maxSpeedClamp p.options.maxSpeed pi₄.1.velocity }, pi₄.2)

/-- The trail-maintenance step at the end of Particle.update: age the
stored segments, drop expired ones, and (during position updates) append
a new segment when the particle has moved at least 5 units, shifting the
oldest segment out when the buffer is full. -/
def trailStep (p : Particle) (du : List UpdateType) (dt : ℝ) : Particle :=
  match p.style with
  | none => p
  | some st =>
    match st.trail with
    | none => p
    | some tr =>
      let decayTime := tr.decayTime.getD 0.5
      let segs₁ := p.trailSegments.map (fun s => { s with age := s.age + dt })
      let segs₂ := segs₁.filter (fun s => decide (s.age < decayTime))
      let pushed :=
        (if (segs₂.length : ℝ) ≥ tr.length then segs₂.tail else segs₂) ++
          [⟨p.position, 0, Vec2.len p.velocity⟩]
      let segs₃ :=
        if du.contains .position then
          match segs₂.getLast? with
          | none => pushed
          | some lastSegment =>
            if distance lastSegment.position p.position ≥ 5 then pushed else segs₂
        else segs₂
      { p with trailSegments := segs₃ }

/-- The age phase of Particle.update: advance the age and dispose when
the lifespan is reached. -/
def ageStep (du : List UpdateType) (p : Particle) (dt : ℝ) : Particle :=
  if du.contains .age then
    let pa := { p with age := p.age + dt }
    if pa.age ≥ pa.lifespan then { pa with _disposed := true } else pa
  else p

/-- The custom-update-hook step of Particle.update (runs whether or not
the physics phase is enabled). -/
def hookStep (p : Particle) (dt : ℝ) : Particle :=
  match p.options.update with
  | some f => applyPub p f dt
  | none => p

/-- The cached-rotation step of Particle.update: take the explicit
rotation (defaulting to 0), then derive it from the velocity heading when
rotation is null and the direction phase is enabled. -/
def directionStep (du : List UpdateType) (p : Particle) : Particle :=
  let p₁ := { p with actualRotation := p.rotation.getD 0 }
  if du.contains .direction ∧ p₁.rotation = (none : Option ℝ) then
    { p₁ with actualRotation := Vec2.rad p₁.velocity }
  else p₁

/-- The position-integration step of Particle.update. -/
def positionStep (du : List UpdateType) (p : Particle) (dt : ℝ) : Particle :=
  if du.contains .position then
    { p with position := Vec2.add p.position (Vec2.scale p.velocity dt) }
  else p

/-- Particle.update: the age phase (dispose at end of lifespan), the
physics phase, the custom update hook, the cached-rotation update (derive
from velocity when rotation is null and the direction phase is enabled),
the position integration, and trail maintenance. -/
def Particle.update (env : Env) (ctx : FieldCtx) (p : Particle) (dt : ℝ) (i : ℕ) :
    Particle × ℕ :=
  let du := prepareDefaultUpdates p.options.defaultUpdates
  let p₁ := ageStep du p dt
  let pi₂ := if du.contains .physics then physicsPhase env ctx p₁ dt i else (p₁, i)
  let p₆ := positionStep du (directionStep du (hookStep pi₂.1 dt)) dt
  (trailStep p₆ du dt, pi₂.2)

/-- A fixed value or a random range for the emission rate / burst count. -/
inductive NumOrRange where
  | fixed (x : ℝ)
  | range (lo hi : ℝ)

/-- A numeric particle-template parameter: fixed, random range, or a
callback of the index within the current emission batch. -/
inductive NumSource where
  | fixed (x : ℝ)
  | range (lo hi : ℝ)
  | fn (f : ℕ → ℝ)

/-- A vector particle-template parameter. -/
inductive VecSource where
  | fixed (v : Vec2)
  | range (lo hi : Vec2)
  | fn (f : ℕ → Vec2)

/-- The particle-position distribution of an emitter. -/
inductive PosDist where
  | uniform
  | normal
  | fn (f : ℕ → Vec2)

/-- The emission policy: `rate`, `burst` (with optional delay) or
`custom` (a user callback producing a particle count; modelled as a pure
function of the emitter's age). -/
inductive Emission where
  | rate (rate : NumOrRange)
  | burst (n : NumOrRange) (delay : Option ℝ)
  | custom (f : ℝ → ℝ)

/-- The particle template of EmitterOptions. -/
structure ParticleTemplate where
  position : PosDist
  speed : NumSource
  direction : NumSource
  size : VecSource
  rotation : Option NumSource
  lifespan : NumSource
  style : Option Style
  options : ParticleOptions

/-- EmitterOptions. -/
structure EmitterOptions where
  particles : ParticleTemplate
  emission : Emission

/-- Emitter.  `lifespan = -1` means infinite. -/
structure Emitter where
  position : Vec2
  size : Vec2
  lifespan : ℝ
  age : ℝ
  totalParticlesEmitted : ℤ
  options : EmitterOptions
  _disposed : Bool
  currentRate : ℝ
  lastRateChange : ℝ
  particlesToEmit : ℝ

/-- Emitter.disposed getter. -/
def Emitter.disposed (e : Emitter) : Bool := e._disposed

/-- Resolve a numeric template parameter (function first, then random
range — drawing an integer when `integer` is set — then fixed value),
mirroring the three-way branching in createParticle. -/
def resolveNum (env : Env) (src : NumSource) (integer : Bool) (n : ℕ) (i : ℕ) : ℝ × ℕ :=
  match src with
  | .fn f => (f n, i)
  | .range _ _ =>
      if integer then
        let z := drawInt env i
        ((z.1 : ℝ), z.2)
      else drawReal env i
  | .fixed x => (x, i)

/-- Emitter.createParticle: resolve position (exact emitter position when
the emitter size is almost zero; otherwise uniform / normal integer
sampling in the emitter box, or a callback), speed (integer-sampled when
random), direction, size, rotation and lifespan, derive the velocity as
`(speed, 0)` rotated by `direction`, and construct a fresh particle
(age 0, not disposed, trail buffer seeded when a trail is configured). -/
def Emitter.createParticle (env : Env) (e : Emitter) (n : ℕ) (i : ℕ) : Particle × ℕ :=
  let tpl := e.options.particles
  let posi : Vec2 × ℕ :=
    if env.almostZero e.size then (e.position, i)
    else
      match tpl.position with
      | .uniform =>
        let zx := drawInt env i
        let zy := drawInt env zx.2
        (⟨(zx.1 : ℝ), (zy.1 : ℝ)⟩, zy.2)
      | .normal =>
        let zx := drawInt env i
        let zy := drawInt env zx.2
        (⟨(zx.1 : ℝ), (zy.1 : ℝ)⟩, zy.2)
      | .fn f => (f n, i)
  let speedi := resolveNum env tpl.speed true n posi.2
  let directioni := resolveNum env tpl.direction false n speedi.2
  let velocity := Vec2.rot ⟨speedi.1, 0⟩ directioni.1
  let sizei : Vec2 × ℕ :=
    match tpl.size with
    | .fn f => (f n, directioni.2)
    | .range _ _ =>
      let sx := drawReal env directioni.2
      let sy := drawReal env sx.2
      (⟨sx.1, sy.1⟩, sy.2)
    | .fixed v => (v, directioni.2)
  let rotationi : Option ℝ × ℕ :=
    match tpl.rotation with
    | none => (none, sizei.2)
    | some src =>
      let r := resolveNum env src false n sizei.2
      (some r.1, r.2)
  let lifespani := resolveNum env tpl.lifespan false n rotationi.2
  (⟨posi.1, velocity, sizei.1, rotationi.1, 0, lifespani.1, tpl.style, 0,
    (match tpl.style with
     | some st => (match st.trail with
        | some _ => [⟨posi.1, 0, Vec2.len velocity⟩]
        | none => [])
     | none => []),
    tpl.options, false⟩, lifespani.2)

/-- Emitter.emitParticles: create `count` particles, passing each its
index within the batch, and collect them (each created particle is
pushed onto the system's particle list). -/
def Emitter.emitParticles (env : Env) (e : Emitter) :
    ℕ → ℕ → ℕ → List Particle × ℕ
  | 0, _, i => ([], i)
  | Nat.succ k, idx, i =>
    let pi₁ := Emitter.createParticle env e idx i
    let rest := Emitter.emitParticles env e k (idx + 1) pi₁.2
    (pi₁.1 :: rest.1, rest.2)

/-- Emitter.update: age (dispose and return when a finite lifespan is
reached), then branch on the emission policy.  `rate`: re-resolve the
current rate when it is non-positive or one second has elapsed,
accumulate `rate*dt` into the fractional counter, and when the counter
reaches 1 emit `floor(counter)` particles keeping the remainder.
`burst`: once the (falsy-checked) delay has passed, resolve the count and
on a positive count emit and dispose immediately.  `custom`: emit the
ceiling of the callback's value when positive.  Returns the updated
emitter, the particles pushed onto the system, and the next rng index. -/
def Emitter.update (env : Env) (e : Emitter) (dt : ℝ) (i : ℕ) :
    Emitter × List Particle × ℕ :=
  let e := { e with age := e.age + dt }
  if e.lifespan ≠ -1 ∧ e.age ≥ e.lifespan then ({ e with _disposed := true }, [], i)
  else
    match e.options.emission with
    | .rate rate =>
      let e₁ := { e with lastRateChange := e.lastRateChange + dt }
      let ei₂ : Emitter × ℕ :=
        if e₁.currentRate ≤ 0 ∨ e₁.lastRateChange ≥ 1 then
          match rate with
          | .range _ _ =>
            let r := drawReal env i
            ({ e₁ with lastRateChange := 0, currentRate := r.1 }, r.2)
          | .fixed x => ({ e₁ with lastRateChange := 0, currentRate := x }, i)
        else (e₁, i)
      let e₃ := { ei₂.1 with particlesToEmit := ei₂.1.particlesToEmit + ei₂.1.currentRate * dt }
      if e₃.particlesToEmit ≥ 1 then
        let n : ℤ := ⌊e₃.particlesToEmit⌋
        let e₄ := { e₃ with particlesToEmit := e₃.particlesToEmit - (n : ℝ) }
        let ps := Emitter.emitParticles env e₄ n.toNat 0 ei₂.2
        ({ e₄ with totalParticlesEmitted := e₄.totalParticlesEmitted + n }, ps.1, ps.2)
      else (e₃, [], ei₂.2)
    | .burst nSpec delay =>
      if delay = none ∨ delay = some 0 ∨ e.age ≥ delay.getD 0 then
        let ni : ℤ × ℕ :=
          match nSpec with
          | .range _ _ => drawInt env i
          | .fixed x => (⌈x⌉, i)
        if ni.1 > 0 then
          let ps := Emitter.emitParticles env e ni.1.toNat 0 ni.2
          let e' := { e with totalParticlesEmitted := e.totalParticlesEmitted + ni.1 }
          ({ e' with _disposed := true }, ps.1, ps.2)
        else (e, [], ni.2)
      else (e, [], i)
    | .custom f =>
      let n : ℤ := ⌈f e.age⌉
      if n > 0 then
        let ps := Emitter.emitParticles env e n.toNat 0 i
        ({ e with totalParticlesEmitted := e.totalParticlesEmitted + n }, ps.1, ps.2)
      else (e, [], i)

/-- ParticleSystem: the six owned collections. -/
structure PSystem where
  particles : List Particle
  emitters : List Emitter
  attractors : List Attractor
  forceFields : List ForceField
  colliders : List Collider
  sinks : List Sink

/-- The field-entity collections of a system, as read by the particle
pass. -/
def fieldCtx (s : PSystem) : FieldCtx := ⟨s.attractors, s.forceFields, s.sinks, s.colliders⟩

/-- ParticleSystem.disposed getter: the particle collection is empty or
all-disposed, and the emitter collection is empty or all-disposed. -/
def PSystem.disposed (s : PSystem) : Bool :=
  (s.particles.isEmpty || s.particles.all (fun p => p.disposed)) &&
    (s.emitters.isEmpty || s.emitters.all (fun e => e.disposed))

/-- The particle pass of ParticleSystem.update: update each non-disposed
particle in place against the current field-entity collections. -/
def particlesPass (env : Env) (ctx : FieldCtx) (dt : ℝ) :
    List Particle → ℕ → List Particle × ℕ
  | [], i => ([], i)
  | p :: ps, i =>
    if p.disposed then
      let rest := particlesPass env ctx dt ps i
      (p :: rest.1, rest.2)
    else
      let pi₁ := Particle.update env ctx p dt i
      let rest := particlesPass env ctx dt ps pi₁.2
      (pi₁.1 :: rest.1, rest.2)

/-- The emitter pass of ParticleSystem.update: update each non-disposed
emitter, collecting the particles it pushes onto the system. -/
def emittersPass (env : Env) (dt : ℝ) :
    List Emitter → ℕ → List Emitter × List Particle × ℕ
  | [], i => ([], [], i)
  | e :: es, i =>
    if e.disposed then
      let rest := emittersPass env dt es i
      (e :: rest.1, rest.2.1, rest.2.2)
    else
      let ei₁ := Emitter.update env e dt i
      let rest := emittersPass env dt es ei₁.2.2
      (ei₁.1 :: rest.1, ei₁.2.1 ++ rest.2.1, rest.2.2)

/-- ParticleSystem.update: update-then-filter the particles (emitted
particles are appended by the emitter pass after this filter), then the
emitters, then the attractors, then the force fields, then the sinks;
colliders are not updated. -/
def PSystem.update (env : Env) (s : PSystem) (dt : ℝ) (i : ℕ) : PSystem × ℕ :=
  let ctx := fieldCtx s
  let psi := particlesPass env ctx dt s.particles i
  let particles₁ := psi.1.filter (fun p => !p.disposed)
  let esi := emittersPass env dt s.emitters psi.2
  let particles₂ := particles₁ ++ esi.2.1
  let emitters₁ := esi.1.filter (fun e => !e.disposed)
  let attractors₁ :=
    (s.attractors.map (fun a => if a.disposed then a else a.update dt)).filter
      (fun a => !a.disposed)
  let forceFields₁ :=
    (s.forceFields.map (fun f => if f.disposed then f else f.update dt)).filter
      (fun f => !f.disposed)
  let sinks₁ :=
    (s.sinks.map (fun k => if k.disposed then k else k.update dt)).filter
      (fun k => !k.disposed)
  (⟨particles₂, emitters₁, attractors₁, forceFields₁, s.colliders, sinks₁⟩, esi.2.2)

/-- ParticleSystem.draw draws exactly the non-disposed particles, in
collection order (drawing itself only writes to the canvas). -/
def systemDrawList (s : PSystem) : List Particle := s.particles.filter (fun p => !p.disposed)

/-- Modelled from the spec: the particle pass of the per-frame pipeline —
run each live particle's update against the current collections, then
replace the particle collection with its non-disposed members. -/
def specParticlesPhase (env : Env) (dt : ℝ) (si : PSystem × ℕ) : PSystem × ℕ :=
  let r := particlesPass env (fieldCtx si.1) dt si.1.particles si.2
  ({ si.1 with particles := r.1.filter (fun p => !p.disposed) }, r.2)

/-- Modelled from the spec: the emitter pass — run each live emitter's
update (which may append new particles), then keep only non-disposed
emitters. -/
def specEmittersPhase (env : Env) (dt : ℝ) (si : PSystem × ℕ) : PSystem × ℕ :=
  let r := emittersPass env dt si.1.emitters si.2
  let s₁ := { si.1 with particles := si.1.particles ++ r.2.1 }
  ({ s₁ with emitters := r.1.filter (fun e => !e.disposed) }, r.2.2)

/-- Modelled from the spec: the attractor pass — age each live attractor,
then keep only non-disposed attractors. -/
def specAttractorsPhase (dt : ℝ) (si : PSystem × ℕ) : PSystem × ℕ :=
  let l := (si.1.attractors.map (fun a => if a.disposed then a else a.update dt)).filter
    (fun a => !a.disposed)
  ({ si.1 with attractors := l }, si.2)

/-- Modelled from the spec: the force-field pass. -/
def specForceFieldsPhase (dt : ℝ) (si : PSystem × ℕ) : PSystem × ℕ :=
  let l := (si.1.forceFields.map (fun f => if f.disposed then f else f.update dt)).filter
    (fun f => !f.disposed)
  ({ si.1 with forceFields := l }, si.2)

/-- Modelled from the spec: the sink pass. -/
def specSinksPhase (dt : ℝ) (si : PSystem × ℕ) : PSystem × ℕ :=
  let l := (si.1.sinks.map (fun k => if k.disposed then k else k.update dt)).filter
    (fun k => !k.disposed)
  ({ si.1 with sinks := l }, si.2)

/-- Modelled from the spec: the whole per-frame update as the composition
of the five passes in the specified order — particles, then emitters,
then attractors, then force fields, then sinks — with colliders left
untouched. -/
def specOrderedUpdate (env : Env) (s : PSystem) (dt : ℝ) (i : ℕ) : PSystem × ℕ :=
  specSinksPhase dt
    (specForceFieldsPhase dt
      (specAttractorsPhase dt
        (specEmittersPhase env dt
          (specParticlesPhase env dt (s, i)))))

/-- The particles appended by the emitter pass during one
ParticleSystem.update call. -/
def emittedThisFrame (env : Env) (s : PSystem) (dt : ℝ) (i : ℕ) : List Particle :=
  (emittersPass env dt s.emitters (particlesPass env (fieldCtx s) dt s.particles i).2).2.1

/-- Modelled from the spec: the external broad-phase AABB helper of
@basementuniverse/intersection-helpers signals invalid geometry — in
particular a polygon with fewer than three vertices — by returning null;
for valid geometry it returns a bounding box (only the none/some
distinction is consumed by handleCollision's broad phase, so the box
returned for valid geometry is not modelled in detail here). -/
def specAabb : ColliderGeometry → Option AABB
  | .circle c r => some ⟨Vec2.sub c ⟨r, r⟩, ⟨2 * r, 2 * r⟩⟩
  | .rectangle c sz _ => some ⟨Vec2.sub c (Vec2.scale sz 0.5), sz⟩
  | .polygon vs => if vs.length < 3 then none else some ⟨⟨0, 0⟩, ⟨0, 0⟩⟩

/-- A trivial environment used for concrete witnesses: the random stream
is constantly zero and the external geometry helpers report no geometry
and no containment. -/
def env0 : Env :=
  { rng := fun _ => 0
    almostZero := fun _ => true
    aabb := fun _ => none
    pointInAABB := fun _ _ => false
    pointInCircle := fun _ _ _ => none
    pointInRectangle := fun _ _ _ _ => none
    pointInPolygon := fun _ _ => none }

/-! ### Helper lemmas: no operation clears or sets the disposed flag except
the age phase of Particle.update (and the lifespan checks of the field
entities), and none ever sets it back to false. -/

theorem Particle.disposed_mk (pos vel sz : Vec2) (rot : Option ℝ) (age lif : ℝ)
    (st : Option Style) (ar : ℝ) (ts : List TrailSegment) (o : ParticleOptions) (d : Bool) :
    (Particle.mk pos vel sz rot age lif st ar ts o d).disposed = d := rfl

theorem Particle.disposed_eq (p : Particle) : p._disposed = p.disposed := rfl

theorem applyPub_disposed (p : Particle) (f : PubState → ℝ → PubState) (dt : ℝ) :
    (applyPub p f dt).disposed = p.disposed := rfl

theorem Attractor.applyForce_disposed (a : Attractor) (p : Particle) (dt : ℝ) :
    (a.applyForce p dt).disposed = p.disposed := by
  simp only [Attractor.applyForce]
  split <;> rfl

theorem ForceField.applyForce_keeps_disposed (f : ForceField) (p : Particle) (dt : ℝ) :
    (f.applyForce p dt).disposed = p.disposed := by
  simp only [ForceField.applyForce]
  cases f.customForce <;> rfl

theorem Sink.affect_disposed (s : Sink) (p : Particle) (dt : ℝ) :
    (s.affect p dt).disposed = p.disposed := by
  simp only [Sink.affect]
  split
  · rfl
  · cases s.mode <;> rfl

theorem Collider.handleCollision_disposed (env : Env) (c : Collider) (p : Particle) (i : ℕ) :
    ((c.handleCollision env p i).1).disposed = p.disposed := by
  simp only [Collider.handleCollision]
  repeat' split <;> try rfl

theorem attractorLoop_disposed (u : UseSetting) (dt : ℝ) :
    ∀ (as : List Attractor) (p : Particle), (attractorLoop u dt as p).disposed = p.disposed := by
  intro as
  induction as with
  | nil => intro p; rfl
  | cons a as ih =>
    intro p
    show (attractorLoop u dt as _).disposed = _
    rw [ih]
    split
    · exact Attractor.applyForce_disposed a p dt
    · rfl

theorem forceFieldLoop_disposed (u : UseSetting) (dt : ℝ) :
    ∀ (fs : List ForceField) (p : Particle),
      (forceFieldLoop u dt fs p).disposed = p.disposed := by
  intro fs
  induction fs with
  | nil => intro p; rfl
  | cons f fs ih =>
    intro p
    show (forceFieldLoop u dt fs _).disposed = _
    rw [ih]
    split
    · exact ForceField.applyForce_keeps_disposed f p dt
    · rfl

theorem sinkLoop_disposed (u : UseSetting) (dt : ℝ) :
    ∀ (ss : List Sink) (p : Particle), (sinkLoop u dt ss p).disposed = p.disposed := by
  intro ss
  induction ss with
  | nil => intro p; rfl
  | cons s ss ih =>
    intro p
    show (sinkLoop u dt ss _).disposed = _
    rw [ih]
    split
    · exact Sink.affect_disposed s p dt
    · rfl

theorem colliderLoop_disposed (env : Env) (u : UseSetting) :
    ∀ (cs : List Collider) (p : Particle) (i : ℕ),
      ((colliderLoop env u cs p i).1).disposed = p.disposed := by
  intro cs
  induction cs with
  | nil => intro p i; rfl
  | cons c cs ih =>
    intro p i
    show ((colliderLoop env u cs _ _).1).disposed = _
    rw [ih]
    split
    · exact Collider.handleCollision_disposed env c p i
    · rfl

theorem physicsPhase_disposed (env : Env) (ctx : FieldCtx) (p : Particle) (dt : ℝ)
    (i : ℕ) : ((physicsPhase env ctx p dt i).1).disposed = p.disposed := by
  simp only [physicsPhase]
  split <;> split <;> split <;> split <;>
    simp only [Particle.disposed_mk, Particle.disposed_eq, colliderLoop_disposed,
      sinkLoop_disposed, forceFieldLoop_disposed, attractorLoop_disposed]

theorem trailStep_disposed (p : Particle) (du : List UpdateType) (dt : ℝ) :
    (trailStep p du dt).disposed = p.disposed := by
  simp only [trailStep]
  repeat' split <;> try rfl

theorem hookStep_disposed (p : Particle) (dt : ℝ) :
    (hookStep p dt).disposed = p.disposed := by
  simp only [hookStep]
  cases p.options.update <;> rfl

theorem directionStep_disposed (du : List UpdateType) (p : Particle) :
    (directionStep du p).disposed = p.disposed := by
  simp only [directionStep]
  split <;> rfl

theorem positionStep_disposed (du : List UpdateType) (p : Particle) (dt : ℝ) :
    (positionStep du p dt).disposed = p.disposed := by
  simp only [positionStep]
  split <;> rfl

theorem ageStep_disposed_mono (du : List UpdateType) (p : Particle) (dt : ℝ)
    (h : p.disposed = true) : (ageStep du p dt).disposed = true := by
  simp only [ageStep]
  split
  · split
    · rfl
    · exact h
  · exact h

theorem Particle.update_disposed_mono (env : Env) (ctx : FieldCtx) (p : Particle)
    (dt : ℝ) (i : ℕ) (h : p.disposed = true) :
    ((Particle.update env ctx p dt i).1).disposed = true := by
  simp only [Particle.update]
  rw [trailStep_disposed, positionStep_disposed, directionStep_disposed, hookStep_disposed]
  split
  · rw [physicsPhase_disposed]
    exact ageStep_disposed_mono _ p dt h
  · exact ageStep_disposed_mono _ p dt h

theorem Emitter.createParticle_age (env : Env) (e : Emitter) (n i : ℕ) :
    ((Emitter.createParticle env e n i).1).age = 0 := rfl

theorem Emitter.createParticle_disposed (env : Env) (e : Emitter) (n i : ℕ) :
    ((Emitter.createParticle env e n i).1).disposed = false := rfl

theorem Emitter.emitParticles_fresh (env : Env) (e : Emitter) :
    ∀ (k idx i : ℕ), ∀ p ∈ (Emitter.emitParticles env e k idx i).1,
      p.age = 0 ∧ p.disposed = false := by
  intro k
  induction k with
  | zero =>
    intro idx i p hp
    simp only [Emitter.emitParticles, List.not_mem_nil] at hp
  | succ k ih =>
    intro idx i p hp
    simp only [Emitter.emitParticles, List.mem_cons] at hp
    rcases hp with rfl | hp
    · exact ⟨Emitter.createParticle_age env e idx i, Emitter.createParticle_disposed env e idx i⟩
    · exact ih (idx + 1) _ p hp

theorem Emitter.update_fresh (env : Env) (e : Emitter) (dt : ℝ) (i : ℕ) :
    ∀ p ∈ (Emitter.update env e dt i).2.1, p.age = 0 ∧ p.disposed = false := by
  intro p hp
  simp only [Emitter.update] at hp
  repeat' split at hp
  all_goals
    first
      | exact absurd hp (List.not_mem_nil p)
      | exact Emitter.emitParticles_fresh env _ _ _ _ p hp

theorem emittersPass_fresh (env : Env) (dt : ℝ) :
    ∀ (es : List Emitter) (i : ℕ), ∀ p ∈ (emittersPass env dt es i).2.1,
      p.age = 0 ∧ p.disposed = false := by
  intro es
  induction es with
  | nil =>
    intro i p hp
    simp only [emittersPass, List.not_mem_nil] at hp
  | cons e es ih =>
    intro i p hp
    simp only [emittersPass] at hp
    split at hp
    · exact ih i p hp
    · rw [List.mem_append] at hp
      rcases hp with hp | hp
      · exact Emitter.update_fresh env e dt i p hp
      · exact ih _ p hp

theorem PSystem.update_no_disposed (env : Env) (s : PSystem) (dt : ℝ) (i : ℕ) :
    ∀ p ∈ ((PSystem.update env s dt i).1).particles, p.disposed = false := by
  intro p hp
  simp only [PSystem.update, List.mem_append] at hp
  rcases hp with hp | hp
  · have := (List.mem_filter.mp hp).2
    simpa using this
  · exact (emittersPass_fresh env dt s.emitters _ p hp).2

/-- C1: once a particle's `disposed` flag is true no operation of the
engine ever clears it (attractor / force-field / sink / collider effects
leave the flag untouched, and Particle.update can only set it), and after
ParticleSystem.update returns, the particle collection contains no
disposed particle. -/
theorem claim_C1_disposal_invariant :
    (∀ (a : Attractor) (p : Particle) (dt : ℝ), (a.applyForce p dt).disposed = p.disposed)
    ∧ (∀ (f : ForceField) (p : Particle) (dt : ℝ), (f.applyForce p dt).disposed = p.disposed)
    ∧ (∀ (s : Sink) (p : Particle) (dt : ℝ), (s.affect p dt).disposed = p.disposed)
    ∧ (∀ (env : Env) (c : Collider) (p : Particle) (i : ℕ),
        ((c.handleCollision env p i).1).disposed = p.disposed)
    ∧ (∀ (env : Env) (ctx : FieldCtx) (p : Particle) (dt : ℝ) (i : ℕ),
        p.disposed = true → ((Particle.update env ctx p dt i).1).disposed = true)
    ∧ (∀ (env : Env) (s : PSystem) (dt : ℝ) (i : ℕ),
        ∀ p ∈ ((PSystem.update env s dt i).1).particles, p.disposed = false) :=
  ⟨Attractor.applyForce_disposed, ForceField.applyForce_keeps_disposed, Sink.affect_disposed,
    Collider.handleCollision_disposed, Particle.update_disposed_mono,
    PSystem.update_no_disposed⟩

theorem headI_mem_of_ne_nil {α : Type} [Inhabited α] (l : List α) (h : l ≠ []) :
    l.headI ∈ l := by
  cases l with
  | nil => exact absurd rfl h
  | cons a l => exact List.mem_cons_self a l

/-- C2: one ParticleSystem.update call is exactly the spec's ordered
pipeline — particles, then emitters, then attractors, then force fields,
then sinks, each pass followed by a non-disposed filter of its own
collection — with colliders never updated; consequently the particles an
emitter appends during the call are added after the particle pass, still
have their initial age 0 (they received no update this call), are not
disposed, and are drawn by the subsequent draw. -/
theorem claim_C2_update_order :
    ∀ (env : Env) (s : PSystem) (dt : ℝ) (i : ℕ),
      PSystem.update env s dt i = specOrderedUpdate env s dt i
      ∧ ((PSystem.update env s dt i).1).colliders = s.colliders
      ∧ ∀ p ∈ emittedThisFrame env s dt i,
          p ∈ ((PSystem.update env s dt i).1).particles
          ∧ p.age = 0 ∧ p.disposed = false
          ∧ p ∈ systemDrawList (PSystem.update env s dt i).1 := by
  intro env s dt i
  refine ⟨rfl, rfl, ?_⟩
  intro p hp
  simp only [emittedThisFrame] at hp
  have hf := emittersPass_fresh env dt s.emitters _ p hp
  have hmem : p ∈ ((PSystem.update env s dt i).1).particles := by
    simp only [PSystem.update]
    exact List.mem_append_right _ hp
  refine ⟨hmem, hf.1, hf.2, ?_⟩
  simp only [systemDrawList]
  exact List.mem_filter.mpr ⟨hmem, by simp [hf.2]⟩

/-- A particle template with all parameters fixed, used for concrete
witnesses. -/
def tpl0 : ParticleTemplate :=
  { position := .uniform
    speed := .fixed 0
    direction := .fixed 0
    size := .fixed ⟨1, 1⟩
    rotation := some (.fixed 0)
    lifespan := .fixed 1
    style := none
    options := defaultParticleOptions }

/-- A burst emitter (n = 1, no delay, infinite lifespan) used for
concrete witnesses. -/
def eBurst : Emitter :=
  { position := ⟨0, 0⟩
    size := ⟨0, 0⟩
    lifespan := -1
    age := 0
    totalParticlesEmitted := 0
    options := { particles := tpl0, emission := .burst (.fixed 1) none }
    _disposed := false
    currentRate := 0
    lastRateChange := 0
    particlesToEmit := 0 }

/-- A system holding only the concrete burst emitter. -/
def sBurst : PSystem := ⟨[], [eBurst], [], [], [], []⟩

/-- Witness for C2: in a concrete system whose burst emitter emits one
particle this frame, that particle is in the post-update collection with
age 0, not disposed, and in the draw list. -/
theorem claim_C2_update_order_witness :
    (emittedThisFrame env0 sBurst 1 0).headI ∈ ((PSystem.update env0 sBurst 1 0).1).particles
    ∧ (emittedThisFrame env0 sBurst 1 0).headI.age = 0
    ∧ (emittedThisFrame env0 sBurst 1 0).headI.disposed = false
    ∧ (emittedThisFrame env0 sBurst 1 0).headI ∈ systemDrawList (PSystem.update env0 sBurst 1 0).1 :=
  (claim_C2_update_order env0 sBurst 1 0).2.2 _
    (headI_mem_of_ne_nil _ (by
      simp only [emittedThisFrame, sBurst, particlesPass, emittersPass, eBurst, tpl0,
        Emitter.update, Emitter.emitParticles, Emitter.disposed]
      norm_num
      exact List.cons_ne_nil _ _))

/-- A disposed particle used for concrete witnesses. -/
def pDead : Particle :=
  ⟨⟨0, 0⟩, ⟨0, 0⟩, ⟨1, 1⟩, some 0, 0, 1, none, 0, [], defaultParticleOptions, true⟩

/-- A live particle with all default update phases turned off, used for
concrete witnesses. -/
def pQuiet : Particle :=
  ⟨⟨0, 0⟩, ⟨0, 0⟩, ⟨1, 1⟩, some 0, 0, 1, none, 0, [],
    { defaultParticleOptions with defaultUpdates := .noneU }, false⟩

/-- A one-particle system used for concrete witnesses. -/
def sQuiet : PSystem := ⟨[pQuiet], [], [], [], [], []⟩

/-- An empty field-entity context used for concrete witnesses. -/
def ctx0 : FieldCtx := ⟨[], [], [], []⟩

/-- Witness for C1: a concrete disposed particle stays disposed through
Particle.update, and the concrete particle surviving a concrete
ParticleSystem.update is not disposed. -/
theorem claim_C1_disposal_invariant_witness :
    ((Particle.update env0 ctx0 pDead 1 0).1).disposed = true
    ∧ ({ pQuiet with actualRotation := 0 } : Particle).disposed = false :=
  ⟨claim_C1_disposal_invariant.2.2.2.2.1 env0 ctx0 pDead 1 0 rfl,
    claim_C1_disposal_invariant.2.2.2.2.2 env0 sQuiet 1 0
      { pQuiet with actualRotation := 0 } (List.mem_cons_self _ _)⟩

/-- C10: the ParticleSystem.disposed getter is true exactly when every
particle is disposed (vacuously so for an empty collection) and every
emitter is disposed (likewise), and it ignores the attractor, force
field, collider and sink collections entirely. -/
theorem claim_C10_system_disposed :
    ∀ (s : PSystem),
      (PSystem.disposed s = true ↔
        ((∀ p ∈ s.particles, p.disposed = true) ∧ (∀ e ∈ s.emitters, e.disposed = true)))
      ∧ ∀ (ats : List Attractor) (ffs : List ForceField) (cols : List Collider) (sks : List Sink),
          PSystem.disposed { s with attractors := ats, forceFields := ffs, colliders := cols, sinks := sks }
            = PSystem.disposed s := by
  intro s
  have aux : ∀ {α : Type} (l : List α) (P : α → Prop), (l = [] ∨ ∀ x ∈ l, P x) ↔ (∀ x ∈ l, P x) := by
    intro α l P
    constructor
    · rintro (rfl | h)
      · intro x hx
        exact absurd hx (List.not_mem_nil x)
      · exact h
    · exact Or.inr
  constructor
  · simp only [PSystem.disposed, Bool.and_eq_true, Bool.or_eq_true, List.isEmpty_iff,
      List.all_eq_true]
    rw [aux, aux]
  · intro ats ffs cols sks
    rfl

/-- Witness for C10: a system holding exactly one disposed particle and
no emitters reports disposed. -/
theorem claim_C10_system_disposed_witness :
    PSystem.disposed ⟨[pDead], [], [], [], [], []⟩ = true :=
  (claim_C10_system_disposed ⟨[pDead], [], [], [], [], []⟩).1.mpr
    ⟨by
      intro p hp
      rw [List.mem_singleton] at hp
      subst hp
      rfl,
     by
      intro e he
      exact absurd he (List.not_mem_nil e)⟩

theorem Vec2.len_nonneg (v : Vec2) : 0 ≤ Vec2.len v := Real.sqrt_nonneg _

theorem Vec2.len_scale (v : Vec2) (c : ℝ) :
    Vec2.len (Vec2.scale v c) = |c| * Vec2.len v := by
  simp only [Vec2.len, Vec2.scale]
  rw [show (v.x * c) ^ 2 + (v.y * c) ^ 2 = c ^ 2 * (v.x ^ 2 + v.y ^ 2) by ring]
  rw [Real.sqrt_mul (sq_nonneg c), Real.sqrt_sq_eq_abs]

theorem Vec2.len_nor (v : Vec2) (h : Vec2.len v ≠ 0) : Vec2.len (Vec2.nor v) = 1 := by
  simp only [Vec2.nor, if_neg h]
  have hs : (0 : ℝ) ≤ v.x ^ 2 + v.y ^ 2 := by positivity
  have hs0 : v.x ^ 2 + v.y ^ 2 ≠ 0 := by
    intro e
    apply h
    simp only [Vec2.len, e, Real.sqrt_zero]
  simp only [Vec2.len] at h ⊢
  rw [show (v.x / Real.sqrt (v.x ^ 2 + v.y ^ 2)) ^ 2 + (v.y / Real.sqrt (v.x ^ 2 + v.y ^ 2)) ^ 2
      = (v.x ^ 2 + v.y ^ 2) / Real.sqrt (v.x ^ 2 + v.y ^ 2) ^ 2 by ring]
  rw [Real.sq_sqrt hs, div_self hs0, Real.sqrt_one]

/-- The source applies the clamp only when maxSpeed is strictly positive;
when it applies, the resulting speed is at most maxSpeed. -/
theorem maxSpeedClamp_le (ms : ℝ) (v : Vec2) (h : 0 < ms) :
    Vec2.len (maxSpeedClamp ms v) ≤ ms := by
  simp only [maxSpeedClamp, if_pos h]
  split
  · rename_i hgt
    have hL : Vec2.len v ≠ 0 := by
      intro e
      rw [e] at hgt
      linarith
    rw [Vec2.len_scale, Vec2.len_nor v hL, mul_one, abs_of_pos h]
  · rename_i hle
    exact le_of_not_lt hle

/-- With a non-positive maxSpeed (including the -1 sentinel and 0) the
clamp step is the identity. -/
theorem maxSpeedClamp_id (ms : ℝ) (v : Vec2) (h : ms ≤ 0) : maxSpeedClamp ms v = v := by
  simp only [maxSpeedClamp]
  rw [if_neg (by linarith : ¬ ms > 0)]

theorem physicsPhase_velocity_clamped (env : Env) (ctx : FieldCtx) (p : Particle)
    (dt : ℝ) (i : ℕ) :
    ∃ w : Vec2, ((physicsPhase env ctx p dt i).1).velocity
      = maxSpeedClamp p.options.maxSpeed w := ⟨_, rfl⟩

/-- C3 (amended): the physics phase clamps the velocity magnitude to at
most maxSpeed only when maxSpeed is strictly positive; for any
non-positive maxSpeed — including 0 and the -1 sentinel — the clamp step
is a no-op. -/
theorem claim_C3_maxspeed_amended :
    (∀ (ms : ℝ) (v : Vec2), 0 < ms → Vec2.len (maxSpeedClamp ms v) ≤ ms)
    ∧ (∀ (ms : ℝ) (v : Vec2), ms ≤ 0 → maxSpeedClamp ms v = v)
    ∧ (∀ (v : Vec2), maxSpeedClamp (-1) v = v)
    ∧ (∀ (env : Env) (ctx : FieldCtx) (p : Particle) (dt : ℝ) (i : ℕ),
        0 < p.options.maxSpeed →
          Vec2.len (((physicsPhase env ctx p dt i).1).velocity) ≤ p.options.maxSpeed) := by
  refine ⟨fun ms v h => maxSpeedClamp_le ms v h,
          fun ms v h => maxSpeedClamp_id ms v h,
          fun v => maxSpeedClamp_id (-1) v (by norm_num),
          fun env ctx p dt i h => ?_⟩
  obtain ⟨w, hw⟩ := physicsPhase_velocity_clamped env ctx p dt i
  rw [hw]
  exact maxSpeedClamp_le _ w h

/-- A particle with maxSpeed configured to 0 and velocity (3,4), used for
the C3 counterexample. -/
def pZeroCap : Particle :=
  ⟨⟨0, 0⟩, ⟨3, 4⟩, ⟨1, 1⟩, some 0, 0, 10, none, 0, [],
    { defaultParticleOptions with maxSpeed := 0 }, false⟩

/-- Counterexample to C3 as stated: with maxSpeed configured to 0 (which
the claim includes under "configured ≥ 0" and says clamps the velocity
to zero), the physics phase leaves the velocity at (3,4), whose
magnitude is not ≤ 0. -/
theorem claim_C3_maxspeed_counterexample :
    ((physicsPhase env0 ctx0 pZeroCap 1 0).1).velocity = maxSpeedClamp 0 ⟨3, 4⟩
    ∧ maxSpeedClamp 0 ⟨3, 4⟩ = (⟨3, 4⟩ : Vec2)
    ∧ ¬ Vec2.len (⟨3, 4⟩ : Vec2) ≤ 0 := by
  refine ⟨rfl, maxSpeedClamp_id 0 ⟨3, 4⟩ le_rfl, ?_⟩
  have h5 : Vec2.len (⟨3, 4⟩ : Vec2) = 5 := by
    simp only [Vec2.len]
    rw [show (3 : ℝ) ^ 2 + 4 ^ 2 = 25 by norm_num, show (25 : ℝ) = 5 ^ 2 by norm_num,
      Real.sqrt_sq (by norm_num : (0 : ℝ) ≤ 5)]
  rw [h5]
  norm_num

/-- A particle with maxSpeed configured to 2 and velocity (3,4), used for
the C3 witness. -/
def pCap2 : Particle :=
  ⟨⟨0, 0⟩, ⟨3, 4⟩, ⟨1, 1⟩, some 0, 0, 10, none, 0, [],
    { defaultParticleOptions with maxSpeed := 2 }, false⟩

/-- Witness for the amended C3: a concrete particle with maxSpeed 2 ends
the physics phase with speed at most 2, and the -1 sentinel applies no
clamp to a concrete velocity. -/
theorem claim_C3_maxspeed_amended_witness :
    Vec2.len (((physicsPhase env0 ctx0 pCap2 1 0).1).velocity) ≤ 2
    ∧ maxSpeedClamp (-1) ⟨3, 4⟩ = (⟨3, 4⟩ : Vec2) :=
  ⟨claim_C3_maxspeed_amended.2.2.2 env0 ctx0 pCap2 1 0
      (by norm_num [pCap2, defaultParticleOptions]),
    claim_C3_maxspeed_amended.2.2.1 ⟨3, 4⟩⟩

theorem ageStep_options (du : List UpdateType) (p : Particle) (dt : ℝ) :
    (ageStep du p dt).options = p.options := by
  simp only [ageStep]
  split
  · split <;> rfl
  · rfl

/-- Particle.update only consults the field-entity context through the
physics phase (applied to the aged particle). -/
theorem Particle.update_ctx_physics (env : Env) (ctx₁ ctx₂ : FieldCtx) (p : Particle)
    (dt : ℝ) (i : ℕ)
    (h : ∀ q : Particle, q.options = p.options →
      physicsPhase env ctx₁ q dt i = physicsPhase env ctx₂ q dt i) :
    Particle.update env ctx₁ p dt i = Particle.update env ctx₂ p dt i := by
  simp only [Particle.update]
  rw [h (ageStep (prepareDefaultUpdates p.options.defaultUpdates) p dt)
    (ageStep_options (prepareDefaultUpdates p.options.defaultUpdates) p dt)]

theorem physicsPhase_no_attractors (env : Env) (ats : List Attractor)
    (ffs : List ForceField) (sks : List Sink) (cols : List Collider) (q : Particle)
    (dt : ℝ) (i : ℕ) (h : q.options.useAttractors = .bool false) :
    physicsPhase env ⟨ats, ffs, sks, cols⟩ q dt i
      = physicsPhase env ⟨[], ffs, sks, cols⟩ q dt i := by
  simp [physicsPhase, h]

theorem attractorLoop_filter_id (s : String) (dt : ℝ) :
    ∀ (as : List Attractor) (p : Particle),
      attractorLoop (.str s) dt as p
        = attractorLoop (.str s) dt (as.filter (fun a => a.id == some s)) p := by
  intro as
  induction as with
  | nil => intro p; rfl
  | cons a as ih =>
    intro p
    by_cases hid : (a.id == some s) = true
    · rw [show List.filter (fun a => a.id == some s) (a :: as)
          = a :: List.filter (fun a => a.id == some s) as by
        simp [List.filter_cons, hid]]
      show attractorLoop (.str s) dt as _ = attractorLoop (.str s) dt (as.filter _) _
      exact ih _
    · rw [show List.filter (fun a => a.id == some s) (a :: as)
          = List.filter (fun a => a.id == some s) as by
        simp [List.filter_cons, hid]]
      show attractorLoop (.str s) dt as
        (if a.disposed = false ∧ shouldUseElement (.str s) a.id = true then a.applyForce p dt
          else p) = _
      rw [if_neg (fun hc => hid hc.2)]
      exact ih p

theorem physicsPhase_attractor_filter (env : Env) (ats : List Attractor)
    (ffs : List ForceField) (sks : List Sink) (cols : List Collider) (q : Particle)
    (dt : ℝ) (i : ℕ) (s : String) (h : q.options.useAttractors = .str s) :
    physicsPhase env ⟨ats, ffs, sks, cols⟩ q dt i
      = physicsPhase env ⟨ats.filter (fun a => a.id == some s), ffs, sks, cols⟩ q dt i := by
  simp only [physicsPhase, h]
  rw [← attractorLoop_filter_id]

/-- C8: a particle with useAttractors = false is updated exactly as if the
system had no attractors at all, whatever the attractor set; a particle
with useAttractors set to a specific id string is updated exactly as if
the attractor collection were filtered to the attractors carrying that
id, so attractors with a different id or with no id never affect it. -/
theorem claim_C8_attractor_targeting :
    (∀ (env : Env) (ats : List Attractor) (ffs : List ForceField) (sks : List Sink)
        (cols : List Collider) (p : Particle) (dt : ℝ) (i : ℕ),
        p.options.useAttractors = .bool false →
        Particle.update env ⟨ats, ffs, sks, cols⟩ p dt i
          = Particle.update env ⟨[], ffs, sks, cols⟩ p dt i)
    ∧ (∀ (env : Env) (ats : List Attractor) (ffs : List ForceField) (sks : List Sink)
        (cols : List Collider) (p : Particle) (dt : ℝ) (i : ℕ) (s : String),
        p.options.useAttractors = .str s →
        Particle.update env ⟨ats, ffs, sks, cols⟩ p dt i
          = Particle.update env ⟨ats.filter (fun a => a.id == some s), ffs, sks, cols⟩ p dt i) := by
  constructor
  · intro env ats ffs sks cols p dt i h
    exact Particle.update_ctx_physics env _ _ p dt i
      (fun q hq => physicsPhase_no_attractors env ats ffs sks cols q dt i (hq ▸ h))
  · intro env ats ffs sks cols p dt i s h
    exact Particle.update_ctx_physics env _ _ p dt i
      (fun q hq => physicsPhase_attractor_filter env ats ffs sks cols q dt i s (hq ▸ h))

/-- A concrete in-range attractor used for witnesses. -/
def attrNear : Attractor := ⟨⟨0, 0⟩, 100, 5, 1, -1, none, 0, false⟩

/-- A concrete particle opting out of all attractors. -/
def pNoAttr : Particle :=
  ⟨⟨0, 0⟩, ⟨0, 0⟩, ⟨1, 1⟩, some 0, 0, 10, none, 0, [],
    { defaultParticleOptions with useAttractors := .bool false }, false⟩

/-- A concrete particle targeting only the attractor with id "a". -/
def pIdAttr : Particle :=
  ⟨⟨0, 0⟩, ⟨0, 0⟩, ⟨1, 1⟩, some 0, 0, 10, none, 0, [],
    { defaultParticleOptions with useAttractors := .str "a" }, false⟩

/-- Witness for C8: with a concrete in-range id-less attractor present,
the opted-out particle updates as with no attractors, and the
id-targeting particle updates as with the (empty) matching-id filter. -/
theorem claim_C8_attractor_targeting_witness :
    Particle.update env0 ⟨[attrNear], [], [], []⟩ pNoAttr 1 0
      = Particle.update env0 ⟨[], [], [], []⟩ pNoAttr 1 0
    ∧ Particle.update env0 ⟨[attrNear], [], [], []⟩ pIdAttr 1 0
      = Particle.update env0 ⟨[attrNear].filter (fun a => a.id == some "a"), [], [], []⟩ pIdAttr 1 0 :=
  ⟨claim_C8_attractor_targeting.1 env0 [attrNear] [] [] [] pNoAttr 1 0 rfl,
    claim_C8_attractor_targeting.2 env0 [attrNear] [] [] [] pIdAttr 1 0 "a" rfl⟩

/-- C9: when the broad-phase AABB helper reports invalid geometry (a null
bounding box, as it does for a malformed polygon), handleCollision
returns without modifying the particle. -/
theorem claim_C9_invalid_geometry :
    ∀ (env : Env) (c : Collider) (p : Particle) (i : ℕ),
      env.aabb c.geometry = none → c.handleCollision env p i = (p, i) := by
  intro env c p i h
  simp only [Collider.handleCollision, h]

/-- The witness environment whose AABB helper is the spec-modelled one. -/
def envSpec : Env := { env0 with aabb := specAabb }

/-- A collider whose polygon has only two vertices (malformed). -/
def cBadPoly : Collider := ⟨.polygon [⟨0, 0⟩, ⟨1, 0⟩], 0.5, 0.5, 0, none⟩

/-- Witness for C9: the two-vertex polygon collider is a no-op on a
concrete particle under the spec-modelled AABB helper. -/
theorem claim_C9_invalid_geometry_witness :
    cBadPoly.handleCollision envSpec pQuiet 0 = (pQuiet, 0) :=
  claim_C9_invalid_geometry envSpec cBadPoly pQuiet 0 rfl

theorem Vec2.len_zero : Vec2.len ⟨0, 0⟩ = 0 := by
  norm_num [Vec2.len]

theorem Vec2.sub_self (v : Vec2) : Vec2.sub v v = ⟨0, 0⟩ := by
  simp [Vec2.sub]

theorem Vec2.sub_add_cancel (v w : Vec2) : Vec2.sub (Vec2.add v w) v = w := by
  simp only [Vec2.add, Vec2.sub]
  rw [show v.x + w.x - v.x = w.x by ring, show v.y + w.y - v.y = w.y by ring]

theorem Vec2.len_nor_le_one (v : Vec2) : Vec2.len (Vec2.nor v) ≤ 1 := by
  by_cases h : Vec2.len v = 0
  · simp only [Vec2.nor, if_pos h]
    rw [Vec2.len_zero]
    norm_num
  · rw [Vec2.len_nor v h]

theorem add_scale_scale_zero (v w : Vec2) (dt : ℝ) :
    Vec2.add v (Vec2.scale (Vec2.scale w 0) dt) = v := by
  simp only [Vec2.scale, Vec2.add, mul_zero, zero_mul, add_zero]

/-- The boundary taper max(0, 1-(d/range)²) is at most 1. -/
theorem taper_le_one (rf : ℝ) : max 0 (1 - rf * rf) ≤ 1 :=
  max_le (by norm_num) (sub_le_self 1 (mul_self_nonneg rf))

/-- An inverse-power distance factor over the 1-unit floor, times the
boundary taper, never amplifies the base strength. -/
theorem mult_taper_le (str pw taper : ℝ) (hpw : 1 ≤ pw) (htl : 0 ≤ taper)
    (htu : taper ≤ 1) (hs : 0 ≤ str) : str * (1 / pw) * taper ≤ str := by
  have hpw0 : (0 : ℝ) < pw := lt_of_lt_of_le one_pos hpw
  have h2 : 1 / pw ≤ 1 := by
    rw [div_le_one hpw0]
    exact hpw
  calc str * (1 / pw) * taper ≤ str * (1 / pw) :=
        mul_le_of_le_one_right (mul_nonneg hs (by positivity)) htu
    _ ≤ str := mul_le_of_le_one_right hs h2

theorem scaled_force_le (force pw taper dt L : ℝ) (hpw : 1 ≤ pw) (htl : 0 ≤ taper)
    (htu : taper ≤ 1) (hL0 : 0 ≤ L) (hL : L ≤ 1) (ht : 0 ≤ dt) :
    |dt| * (|force * (1 / pw) * taper| * L) ≤ |force| * dt := by
  have hpw0 : (0 : ℝ) < pw := lt_of_lt_of_le one_pos hpw
  rw [abs_of_nonneg ht, abs_mul, abs_mul, abs_of_nonneg (le_of_lt (by positivity : (0:ℝ) < 1 / pw)),
    abs_of_nonneg htl]
  have key : |force| * (1 / pw) * taper * L ≤ |force| := by
    calc |force| * (1 / pw) * taper * L ≤ |force| * (1 / pw) * taper :=
          mul_le_of_le_one_right
            (mul_nonneg (mul_nonneg (abs_nonneg force) (by positivity)) htl) hL
      _ ≤ |force| := mult_taper_le |force| pw taper hpw htl htu (abs_nonneg force)
  calc dt * (|force| * (1 / pw) * taper * L) ≤ dt * |force| :=
        mul_le_mul_of_nonneg_left key ht
    _ = |force| * dt := mul_comm dt |force|

theorem Attractor.applyForce_out_of_range (a : Attractor) (p : Particle) (dt : ℝ)
    (h : distance a.position p.position > a.range) : a.applyForce p dt = p := by
  simp only [Attractor.applyForce]
  rw [if_pos h]

theorem Attractor.applyForce_at_range (a : Attractor) (p : Particle) (dt : ℝ)
    (hr : 0 < a.range) (hd : distance a.position p.position = a.range) :
    a.applyForce p dt = p := by
  simp only [Attractor.applyForce, hd]
  rw [if_neg (lt_irrefl a.range), div_self (ne_of_gt hr),
    show (1 : ℝ) - 1 * 1 = 0 by norm_num, max_self, mul_zero, add_scale_scale_zero]

theorem Sink.affect_out_of_range (s : Sink) (p : Particle) (dt : ℝ)
    (h : distance s.position p.position > s.range) : s.affect p dt = p := by
  simp only [Sink.affect]
  rw [if_pos h]

theorem Sink.affect_at_range (s : Sink) (p : Particle) (dt : ℝ) (hm : s.mode = .fade)
    (hr : 0 < s.range) (hd : distance s.position p.position = s.range) :
    s.affect p dt = p := by
  simp only [Sink.affect, hd, hm]
  rw [if_neg (lt_irrefl s.range), div_self (ne_of_gt hr),
    show (1 : ℝ) - 1 * 1 = 0 by norm_num, max_self, mul_zero, zero_mul, add_zero]

theorem Attractor.applyForce_bounded (a : Attractor) (p : Particle) (dt : ℝ)
    (hf : 0 ≤ a.falloff) (ht : 0 ≤ dt) :
    Vec2.len (Vec2.sub (a.applyForce p dt).velocity p.velocity) ≤ |a.force| * dt := by
  have hforce_dt : (0 : ℝ) ≤ |a.force| * dt := mul_nonneg (abs_nonneg _) ht
  simp only [Attractor.applyForce]
  split
  · rw [Vec2.sub_self, Vec2.len_zero]
    exact hforce_dt
  · show Vec2.len (Vec2.sub (Vec2.add p.velocity _) p.velocity) ≤ _
    rw [Vec2.sub_add_cancel, Vec2.len_scale, Vec2.len_scale]
    exact scaled_force_le a.force _ _ dt _
      (Real.one_le_rpow (le_max_right _ 1) hf)
      (le_max_left 0 _) (taper_le_one _) (Vec2.len_nonneg _) (Vec2.len_nor_le_one _) ht

theorem Sink.affect_age_bounded (s : Sink) (p : Particle) (dt : ℝ) (hm : s.mode = .fade)
    (hf : 0 ≤ s.falloff) (hs : 0 ≤ s.strength) (ht : 0 ≤ dt) :
    p.age ≤ (s.affect p dt).age ∧ (s.affect p dt).age ≤ p.age + s.strength * dt := by
  simp only [Sink.affect, hm]
  split
  · exact ⟨le_rfl, le_add_of_nonneg_right (mul_nonneg hs ht)⟩
  · have hM0 : (0 : ℝ) ≤ s.strength * (1 / max (distance s.position p.position) 1 ^ s.falloff)
        * max 0 (1 - distance s.position p.position / s.range
            * (distance s.position p.position / s.range)) :=
      mul_nonneg (mul_nonneg hs (by positivity)) (le_max_left 0 _)
    have hM : s.strength * (1 / max (distance s.position p.position) 1 ^ s.falloff)
        * max 0 (1 - distance s.position p.position / s.range
            * (distance s.position p.position / s.range)) ≤ s.strength :=
      mult_taper_le s.strength _ _ (Real.one_le_rpow (le_max_right _ 1) hf)
        (le_max_left 0 _) (taper_le_one _) hs
    constructor
    · show p.age ≤ p.age + _
      exact le_add_of_nonneg_right (mul_nonneg hM0 ht)
    · show p.age + _ ≤ p.age + s.strength * dt
      exact add_le_add_left (mul_le_mul_of_nonneg_right hM ht) p.age

/-- C6: attractor forces and fade-sink aging are no-ops beyond the range,
exactly zero at the range boundary (the taper max(0, 1-(d/range)²)
vanishes), and the falloff divisor — built over the 1-unit minimum
distance floor — is always strictly positive (no division by zero), so
the effect magnitude per update is bounded by |force|·dt (resp. the added
aging by strength·dt) all the way down to d = 0. -/
theorem claim_C6_falloff_boundary :
    (∀ (a : Attractor) (p : Particle) (dt : ℝ),
        distance a.position p.position > a.range → a.applyForce p dt = p)
    ∧ (∀ (a : Attractor) (p : Particle) (dt : ℝ),
        0 < a.range → distance a.position p.position = a.range → a.applyForce p dt = p)
    ∧ (∀ (s : Sink) (p : Particle) (dt : ℝ),
        distance s.position p.position > s.range → s.affect p dt = p)
    ∧ (∀ (s : Sink) (p : Particle) (dt : ℝ),
        s.mode = .fade → 0 < s.range → distance s.position p.position = s.range →
          s.affect p dt = p)
    ∧ (∀ (falloff d : ℝ), 0 < (max d 1) ^ falloff)
    ∧ (∀ (a : Attractor) (p : Particle) (dt : ℝ), 0 ≤ a.falloff → 0 ≤ dt →
        Vec2.len (Vec2.sub ((a.applyForce p dt).velocity) p.velocity) ≤ |a.force| * dt)
    ∧ (∀ (s : Sink) (p : Particle) (dt : ℝ), s.mode = .fade → 0 ≤ s.falloff →
        0 ≤ s.strength → 0 ≤ dt →
          p.age ≤ (s.affect p dt).age ∧ (s.affect p dt).age ≤ p.age + s.strength * dt) :=
  ⟨fun a p dt h => Attractor.applyForce_out_of_range a p dt h,
    fun a p dt hr hd => Attractor.applyForce_at_range a p dt hr hd,
    fun s p dt h => Sink.affect_out_of_range s p dt h,
    fun s p dt hm hr hd => Sink.affect_at_range s p dt hm hr hd,
    fun falloff d => Real.rpow_pos_of_pos (lt_of_lt_of_le one_pos (le_max_right d 1)) falloff,
    fun a p dt hf ht => Attractor.applyForce_bounded a p dt hf ht,
    fun s p dt hm hf hs ht => Sink.affect_age_bounded s p dt hm hf hs ht⟩

/-- A particle sitting at (5,0), used for concrete witnesses. -/
def pAt5 : Particle :=
  ⟨⟨5, 0⟩, ⟨0, 0⟩, ⟨1, 1⟩, some 0, 0, 10, none, 0, [], defaultParticleOptions, false⟩

/-- An attractor at the origin with range 3 (the particle at (5,0) is out
of range). -/
def attrFar : Attractor := ⟨⟨0, 0⟩, 3, 5, 1, -1, none, 0, false⟩

/-- An attractor at the origin with range 5 (the particle at (5,0) is
exactly on the boundary). -/
def attrR5 : Attractor := ⟨⟨0, 0⟩, 5, 5, 1, -1, none, 0, false⟩

/-- A fade sink at the origin with range 3. -/
def sinkFar : Sink := ⟨⟨0, 0⟩, 3, 1, 1, .fade, -1, none, 0, false⟩

/-- A fade sink at the origin with range 5. -/
def sinkR5 : Sink := ⟨⟨0, 0⟩, 5, 1, 1, .fade, -1, none, 0, false⟩

theorem dist05 : distance (⟨0, 0⟩ : Vec2) (⟨5, 0⟩ : Vec2) = 5 := by
  simp only [distance, Vec2.sub, Vec2.len]
  rw [show ((5 : ℝ) - 0) ^ 2 + ((0 : ℝ) - 0) ^ 2 = 5 ^ 2 by norm_num,
    Real.sqrt_sq (by norm_num : (0 : ℝ) ≤ 5)]

/-- Witness for C6: concrete out-of-range and exactly-at-range attractor
and sink applications are no-ops, the concrete falloff divisor is
positive, and the concrete bounded-effect conclusions hold. -/
theorem claim_C6_falloff_boundary_witness :
    attrFar.applyForce pAt5 1 = pAt5
    ∧ attrR5.applyForce pAt5 1 = pAt5
    ∧ sinkFar.affect pAt5 1 = pAt5
    ∧ sinkR5.affect pAt5 1 = pAt5
    ∧ (0 : ℝ) < (max (0 : ℝ) 1) ^ (1 : ℝ)
    ∧ Vec2.len (Vec2.sub ((attrR5.applyForce pAt5 1).velocity) pAt5.velocity)
        ≤ |attrR5.force| * 1
    ∧ pAt5.age ≤ (sinkR5.affect pAt5 1).age :=
  ⟨claim_C6_falloff_boundary.1 attrFar pAt5 1
      (by show distance (⟨0, 0⟩ : Vec2) (⟨5, 0⟩ : Vec2) > (3 : ℝ); rw [dist05]; norm_num),
    claim_C6_falloff_boundary.2.1 attrR5 pAt5 1 (by norm_num [attrR5]) dist05,
    claim_C6_falloff_boundary.2.2.1 sinkFar pAt5 1
      (by show distance (⟨0, 0⟩ : Vec2) (⟨5, 0⟩ : Vec2) > (3 : ℝ); rw [dist05]; norm_num),
    claim_C6_falloff_boundary.2.2.2.1 sinkR5 pAt5 1 rfl (by norm_num [sinkR5]) dist05,
    claim_C6_falloff_boundary.2.2.2.2.1 1 0,
    claim_C6_falloff_boundary.2.2.2.2.2.1 attrR5 pAt5 1 (by norm_num [attrR5]) (by norm_num),
    (claim_C6_falloff_boundary.2.2.2.2.2.2 sinkR5 pAt5 1 rfl (by norm_num [sinkR5])
      (by norm_num [sinkR5]) (by norm_num)).1⟩

theorem Vec2.ext2 : ∀ (a b : Vec2), a.x = b.x → a.y = b.y → a = b
  | ⟨_, _⟩, ⟨_, _⟩, rfl, rfl => rfl

theorem Vec2.sub_zero_vec (v : Vec2) : Vec2.sub v ⟨0, 0⟩ = v := by
  simp only [Vec2.sub, sub_zero]

theorem len_eq_one_sq (n : Vec2) (h : Vec2.len n = 1) : n.x ^ 2 + n.y ^ 2 = 1 := by
  rw [Vec2.len] at h
  have h0 : (0 : ℝ) ≤ n.x ^ 2 + n.y ^ 2 := by positivity
  have hsq := Real.sq_sqrt h0
  rw [h] at hsq
  linarith [hsq]

/-- The post-collision velocity produced by handleCollision's response
path (randomness 0): the `(1+restitution)`-scaled normal impulse followed
by the friction impulse against the tangential component. -/
def collisionVelocity (c : Collider) (p : Particle) (n : Vec2) : Vec2 :=
  Vec2.add
    (Vec2.add p.velocity (Vec2.scale n (-(1 + c.restitution) * Vec2.dot p.velocity n)))
    (Vec2.scale (Vec2.sub p.velocity (Vec2.scale n (Vec2.dot p.velocity n))) (-c.friction))

/-- Under a successful broad phase, a narrow-phase hit with normal `n`,
an inbound velocity and zero randomness, handleCollision resolves to the
normal impulse followed by the friction impulse. -/
theorem handleCollision_formula (env : Env) (c : Collider) (p : Particle) (i : ℕ)
    (box : AABB) (r : IntersectionResult) (n : Vec2)
    (haabb : env.aabb c.geometry = some box)
    (hin : env.pointInAABB p.position box = true)
    (hnar : narrowPhase env c.geometry p.position = some r)
    (hint : r.intersects = true)
    (hn : r.normal = some n)
    (hv : Vec2.dot p.velocity n < 0)
    (hrand : c.randomness = 0) :
    c.handleCollision env p i = ({ p with velocity := collisionVelocity c p n }, i) := by
  simp only [Collider.handleCollision, collisionVelocity, haabb, hin, hnar, hint, hn,
    hrand, Option.getD_some, Vec2.sub_zero_vec, Bool.true_eq_false, if_false,
    lt_self_iff_false]
  rw [if_neg (lt_asymm hv)]

/-- C7: when a collider reports contact with unit normal n, the particle
is inbound (v·n < 0), randomness is 0 and friction is 0: with restitution
1 the velocity is exactly reflected (v - 2(v·n)n), and with restitution 0
the normal component of the velocity is zeroed while the tangential
component is unchanged. -/
theorem claim_C7_collision_response :
    ∀ (env : Env) (c : Collider) (p : Particle) (i : ℕ) (box : AABB)
      (r : IntersectionResult) (n : Vec2),
      env.aabb c.geometry = some box →
      env.pointInAABB p.position box = true →
      narrowPhase env c.geometry p.position = some r →
      r.intersects = true →
      r.normal = some n →
      Vec2.dot p.velocity n < 0 →
      c.randomness = 0 →
      c.friction = 0 →
      ((c.restitution = 1 →
          ((c.handleCollision env p i).1).velocity
            = Vec2.sub p.velocity (Vec2.scale n (2 * Vec2.dot p.velocity n)))
        ∧ (c.restitution = 0 → Vec2.len n = 1 →
          Vec2.dot ((c.handleCollision env p i).1).velocity n = 0
          ∧ Vec2.sub ((c.handleCollision env p i).1).velocity
              (Vec2.scale n (Vec2.dot ((c.handleCollision env p i).1).velocity n))
            = Vec2.sub p.velocity (Vec2.scale n (Vec2.dot p.velocity n)))) := by
  intro env c p i box r n haabb hin hnar hint hn hv hrand hfr
  have hcol := handleCollision_formula env c p i box r n haabb hin hnar hint hn hv hrand
  constructor
  · intro hrest
    simp only [hcol, collisionVelocity, hrest, hfr]
    apply Vec2.ext2 <;>
      simp only [Vec2.add, Vec2.scale, Vec2.sub, Vec2.dot] <;> ring
  · intro hrest hlen
    have hs := len_eq_one_sq n hlen
    simp only [hcol, collisionVelocity, hrest, hfr]
    constructor
    · simp only [Vec2.add, Vec2.scale, Vec2.sub, Vec2.dot]
      linear_combination (-(p.velocity.x * n.x + p.velocity.y * n.y)) * hs
    · apply Vec2.ext2
      · simp only [Vec2.add, Vec2.scale, Vec2.sub, Vec2.dot]
        linear_combination (n.x * (p.velocity.x * n.x + p.velocity.y * n.y)) * hs
      · simp only [Vec2.add, Vec2.scale, Vec2.sub, Vec2.dot]
        linear_combination (n.y * (p.velocity.x * n.x + p.velocity.y * n.y)) * hs

/-- The witness AABB. -/
def boxW : AABB := ⟨⟨-1, -1⟩, ⟨2, 2⟩⟩

/-- The witness narrow-phase result: a hit with unit normal (-1, 0). -/
def resHit : IntersectionResult := ⟨true, ⟨0, 0⟩, 0, some ⟨-1, 0⟩⟩

/-- A witness environment whose geometry helpers report a hit with unit
normal (-1, 0) everywhere. -/
def envHit : Env :=
  { rng := fun _ => 0
    almostZero := fun _ => true
    aabb := fun _ => some boxW
    pointInAABB := fun _ _ => true
    pointInCircle := fun _ _ _ => some resHit
    pointInRectangle := fun _ _ _ _ => none
    pointInPolygon := fun _ _ => none }

/-- A perfectly elastic, frictionless, deterministic collider. -/
def cBounce : Collider := ⟨.circle ⟨0, 0⟩ 1, 1, 0, 0, none⟩

/-- A perfectly inelastic, frictionless, deterministic collider. -/
def cStop : Collider := ⟨.circle ⟨0, 0⟩ 1, 0, 0, 0, none⟩

/-- A particle moving with velocity (3,4) into the witness surface. -/
def pIncoming : Particle :=
  ⟨⟨0, 0⟩, ⟨3, 4⟩, ⟨1, 1⟩, some 0, 0, 10, none, 0, [], defaultParticleOptions, false⟩

/-- Witness for C7: the concrete inbound particle is exactly reflected by
the restitution-1 collider and has its normal velocity component zeroed
by the restitution-0 collider. -/
theorem claim_C7_collision_response_witness :
    ((cBounce.handleCollision envHit pIncoming 0).1).velocity
      = Vec2.sub pIncoming.velocity
          (Vec2.scale ⟨-1, 0⟩ (2 * Vec2.dot pIncoming.velocity ⟨-1, 0⟩))
    ∧ Vec2.dot ((cStop.handleCollision envHit pIncoming 0).1).velocity ⟨-1, 0⟩ = 0 :=
  ⟨(claim_C7_collision_response envHit cBounce pIncoming 0 boxW resHit ⟨-1, 0⟩
      rfl rfl rfl rfl rfl (by norm_num [Vec2.dot, pIncoming]) rfl rfl).1 rfl,
    ((claim_C7_collision_response envHit cStop pIncoming 0 boxW resHit ⟨-1, 0⟩
      rfl rfl rfl rfl rfl (by norm_num [Vec2.dot, pIncoming]) rfl rfl).2 rfl
      (by rw [Vec2.len]; norm_num)).1⟩

/-- One system-style guarded emitter step: the system updates an emitter
only when it is not disposed; the emitter state and rng index are
tracked. -/
def guardedEmitterStep (env : Env) (dt : ℝ) (ei : Emitter × ℕ) : Emitter × ℕ :=
  if ei.1.disposed then ei
  else
    let r := Emitter.update env ei.1 dt ei.2
    (r.1, r.2.2)

/-- k system-style guarded emitter steps. -/
def emitterSteps (env : Env) (dt : ℝ) : ℕ → Emitter × ℕ → Emitter × ℕ
  | 0, ei => ei
  | Nat.succ k, ei => emitterSteps env dt k (guardedEmitterStep env dt ei)

theorem Emitter.emitParticles_length (env : Env) (e : Emitter) :
    ∀ (k idx i : ℕ), (Emitter.emitParticles env e k idx i).1.length = k := by
  intro k
  induction k with
  | zero => intro idx i; rfl
  | succ k ih =>
    intro idx i
    simp only [Emitter.emitParticles, List.length_cons, ih]

/-- A live rate-mode emitter with fixed rate R and infinite lifespan,
whose accumulated counter stays below 1 this update: the update only
accumulates R·dt and emits nothing. -/
theorem Emitter.update_rate_noemit (env : Env) (e : Emitter) (dt R : ℝ) (i : ℕ)
    (hemis : e.options.emission = .rate (.fixed R))
    (hlife : e.lifespan = -1)
    (hcr : e.currentRate = R ∨ e.currentRate ≤ 0)
    (hlt : e.particlesToEmit + R * dt < 1) :
    ∃ lrc : ℝ,
      Emitter.update env e dt i
        = (⟨e.position, e.size, e.lifespan, e.age + dt, e.totalParticlesEmitted,
            e.options, e._disposed, R, lrc, e.particlesToEmit + R * dt⟩, [], i) := by
  by_cases hres : e.currentRate ≤ 0 ∨ e.lastRateChange + dt ≥ 1
  · refine ⟨0, ?_⟩
    simp only [Emitter.update, hemis]
    rw [if_neg (fun hc => hc.1 hlife), if_pos hres, if_neg (not_le.mpr hlt)]
  · have hcrR : e.currentRate = R := by
      rcases hcr with h | h
      · exact h
      · exact absurd (Or.inl h) hres
    refine ⟨e.lastRateChange + dt, ?_⟩
    simp only [Emitter.update, hemis]
    rw [if_neg (fun hc => hc.1 hlife), if_neg hres, hcrR, if_neg (not_le.mpr hlt)]

/-- A live rate-mode emitter with fixed rate R and infinite lifespan,
whose accumulated counter reaches 1 this update: the update emits
floor(counter) particles, subtracts that whole number from the counter,
and adds it to the emission total. -/
theorem Emitter.update_rate_emit (env : Env) (e : Emitter) (dt R : ℝ) (i : ℕ)
    (hemis : e.options.emission = .rate (.fixed R))
    (hlife : e.lifespan = -1)
    (hcr : e.currentRate = R ∨ e.currentRate ≤ 0)
    (hge : e.particlesToEmit + R * dt ≥ 1) :
    ∃ lrc : ℝ,
      let n : ℤ := ⌊e.particlesToEmit + R * dt⌋
      let e₄ : Emitter := ⟨e.position, e.size, e.lifespan, e.age + dt,
        e.totalParticlesEmitted, e.options, e._disposed, R, lrc,
        e.particlesToEmit + R * dt - (n : ℝ)⟩
      Emitter.update env e dt i
        = ({ e₄ with totalParticlesEmitted := e.totalParticlesEmitted + n },
           Emitter.emitParticles env e₄ n.toNat 0 i) := by
  by_cases hres : e.currentRate ≤ 0 ∨ e.lastRateChange + dt ≥ 1
  · refine ⟨0, ?_⟩
    simp only [Emitter.update, hemis]
    rw [if_neg (fun hc => hc.1 hlife), if_pos hres, if_pos hge]
  · have hcrR : e.currentRate = R := by
      rcases hcr with h | h
      · exact h
      · exact absurd (Or.inl h) hres
    refine ⟨e.lastRateChange + dt, ?_⟩
    simp only [Emitter.update, hemis]
    rw [if_neg (fun hc => hc.1 hlife), if_neg hres, hcrR, if_pos hge]

/-- Invariant of iterated system-driven updates of a fixed-rate emitter:
the configuration is preserved, the fractional counter stays in [0,1),
and counter + emission total grows by exactly R·dt each step. -/
theorem rate_iter_invariant (env : Env) (dt R : ℝ) (hR : 0 ≤ R) (hdt : 0 ≤ dt) :
    ∀ (k : ℕ) (e : Emitter) (i : ℕ),
      e.options.emission = .rate (.fixed R) → e.lifespan = -1 →
      (e.currentRate = R ∨ e.currentRate ≤ 0) → e._disposed = false →
      0 ≤ e.particlesToEmit → e.particlesToEmit < 1 →
      ((emitterSteps env dt k (e, i)).1).options = e.options
      ∧ ((emitterSteps env dt k (e, i)).1).lifespan = -1
      ∧ ((emitterSteps env dt k (e, i)).1)._disposed = false
      ∧ 0 ≤ ((emitterSteps env dt k (e, i)).1).particlesToEmit
      ∧ ((emitterSteps env dt k (e, i)).1).particlesToEmit < 1
      ∧ ((emitterSteps env dt k (e, i)).1).particlesToEmit
          + (((emitterSteps env dt k (e, i)).1).totalParticlesEmitted : ℝ)
        = e.particlesToEmit + (e.totalParticlesEmitted : ℝ) + R * (k * dt) := by
  intro k
  induction k with
  | zero =>
    intro e i hemis hlife hcr hdisp hc0 hc1
    refine ⟨rfl, hlife, hdisp, hc0, hc1, ?_⟩
    simp only [emitterSteps]
    push_cast
    ring
  | succ k ih =>
    intro e i hemis hlife hcr hdisp hc0 hc1
    have hstep : emitterSteps env dt (k + 1) (e, i)
        = emitterSteps env dt k ((Emitter.update env e dt i).1, (Emitter.update env e dt i).2.2) := by
      simp only [emitterSteps, guardedEmitterStep, Emitter.disposed, hdisp]
      rfl
    rw [hstep]
    by_cases hge : e.particlesToEmit + R * dt ≥ 1
    · obtain ⟨lrc, heq⟩ := Emitter.update_rate_emit env e dt R i hemis hlife hcr hge
      simp only at heq
      rw [heq]
      dsimp only
      have hx0 : (0 : ℝ) ≤ e.particlesToEmit + R * dt - (⌊e.particlesToEmit + R * dt⌋ : ℝ) := by
        rw [Int.self_sub_floor]
        exact Int.fract_nonneg _
      have hx1 : e.particlesToEmit + R * dt - (⌊e.particlesToEmit + R * dt⌋ : ℝ) < 1 := by
        rw [Int.self_sub_floor]
        exact Int.fract_lt_one _
      obtain ⟨i1, i2, i3, i4, i5, i6⟩ :=
        ih { position := e.position, size := e.size, lifespan := e.lifespan,
             age := e.age + dt,
             totalParticlesEmitted := e.totalParticlesEmitted + ⌊e.particlesToEmit + R * dt⌋,
             options := e.options, _disposed := e._disposed, currentRate := R,
             lastRateChange := lrc,
             particlesToEmit := e.particlesToEmit + R * dt - (⌊e.particlesToEmit + R * dt⌋ : ℝ) }
          ((Emitter.emitParticles env
            { position := e.position, size := e.size, lifespan := e.lifespan,
              age := e.age + dt, totalParticlesEmitted := e.totalParticlesEmitted,
              options := e.options, _disposed := e._disposed, currentRate := R,
              lastRateChange := lrc,
              particlesToEmit := e.particlesToEmit + R * dt - (⌊e.particlesToEmit + R * dt⌋ : ℝ) }
            (⌊e.particlesToEmit + R * dt⌋).toNat 0 i).2)
          hemis hlife (Or.inl rfl) hdisp hx0 hx1
      refine ⟨i1, i2, i3, i4, i5, ?_⟩
      rw [i6]
      push_cast
      ring
    · obtain ⟨lrc, heq⟩ := Emitter.update_rate_noemit env e dt R i hemis hlife hcr
        (lt_of_not_le hge)
      rw [heq]
      dsimp only
      have hx0 : (0 : ℝ) ≤ e.particlesToEmit + R * dt :=
        add_nonneg hc0 (mul_nonneg hR hdt)
      obtain ⟨i1, i2, i3, i4, i5, i6⟩ :=
        ih { position := e.position, size := e.size, lifespan := e.lifespan,
             age := e.age + dt, totalParticlesEmitted := e.totalParticlesEmitted,
             options := e.options, _disposed := e._disposed, currentRate := R,
             lastRateChange := lrc, particlesToEmit := e.particlesToEmit + R * dt }
          i hemis hlife (Or.inl rfl) hdisp hx0 (lt_of_not_le hge)
      refine ⟨i1, i2, i3, i4, i5, ?_⟩
      rw [i6]
      push_cast
      ring

/-- C4: a fixed-rate emitter accumulates rate·dt into its fractional
counter each update; whenever the counter reaches 1 it emits exactly
floor(counter) particles and keeps the remainder, so the counter is in
[0,1) after every update and counter + total is conserved up to the
exact rate·dt inflow; consequently after k system-driven updates of a
fresh emitter the emission total is exactly ⌊R·(k·dt)⌋. -/
theorem claim_C4_rate_accumulator :
    (∀ (env : Env) (e : Emitter) (dt R : ℝ) (i : ℕ),
        e.options.emission = .rate (.fixed R) → e.lifespan = -1 →
        (e.currentRate = R ∨ e.currentRate ≤ 0) →
        0 ≤ e.particlesToEmit → e.particlesToEmit < 1 → 0 ≤ R → 0 ≤ dt →
        (0 ≤ (Emitter.update env e dt i).1.particlesToEmit
          ∧ (Emitter.update env e dt i).1.particlesToEmit < 1
          ∧ ((Emitter.update env e dt i).1.particlesToEmit
              + ((Emitter.update env e dt i).1.totalParticlesEmitted : ℝ))
            = e.particlesToEmit + (e.totalParticlesEmitted : ℝ) + R * dt
          ∧ (1 ≤ e.particlesToEmit + R * dt →
              (Emitter.update env e dt i).1.totalParticlesEmitted
                  = e.totalParticlesEmitted + ⌊e.particlesToEmit + R * dt⌋
              ∧ (Emitter.update env e dt i).1.particlesToEmit
                  = e.particlesToEmit + R * dt - (⌊e.particlesToEmit + R * dt⌋ : ℝ)
              ∧ ((Emitter.update env e dt i).2.1).length
                  = (⌊e.particlesToEmit + R * dt⌋).toNat)
          ∧ (e.particlesToEmit + R * dt < 1 →
              (Emitter.update env e dt i).1.totalParticlesEmitted = e.totalParticlesEmitted
              ∧ (Emitter.update env e dt i).1.particlesToEmit = e.particlesToEmit + R * dt
              ∧ (Emitter.update env e dt i).2.1 = [])))
    ∧ (∀ (env : Env) (dt R : ℝ) (k i : ℕ) (e : Emitter),
        e.options.emission = .rate (.fixed R) → e.lifespan = -1 →
        e.currentRate = 0 → e.particlesToEmit = 0 → e.totalParticlesEmitted = 0 →
        e._disposed = false → 0 ≤ R → 0 ≤ dt →
        ((emitterSteps env dt k (e, i)).1).totalParticlesEmitted = ⌊R * (k * dt)⌋) := by
  constructor
  · intro env e dt R i hemis hlife hcr hc0 hc1 hR hdt
    by_cases hge : e.particlesToEmit + R * dt ≥ 1
    · obtain ⟨lrc, heq⟩ := Emitter.update_rate_emit env e dt R i hemis hlife hcr hge
      simp only at heq
      rw [heq]
      dsimp only
      have hx0 : (0 : ℝ) ≤ e.particlesToEmit + R * dt - (⌊e.particlesToEmit + R * dt⌋ : ℝ) := by
        rw [Int.self_sub_floor]
        exact Int.fract_nonneg _
      have hx1 : e.particlesToEmit + R * dt - (⌊e.particlesToEmit + R * dt⌋ : ℝ) < 1 := by
        rw [Int.self_sub_floor]
        exact Int.fract_lt_one _
      refine ⟨hx0, hx1, by push_cast; ring, ?_, ?_⟩
      · intro _
        exact ⟨rfl, rfl, Emitter.emitParticles_length env _ _ 0 i⟩
      · intro hlt
        exact absurd hge (not_le.mpr hlt)
    · obtain ⟨lrc, heq⟩ := Emitter.update_rate_noemit env e dt R i hemis hlife hcr
        (lt_of_not_le hge)
      rw [heq]
      dsimp only
      refine ⟨add_nonneg hc0 (mul_nonneg hR hdt), lt_of_not_le hge, by push_cast; ring, ?_, ?_⟩
      · intro hge'
        exact absurd hge' hge
      · intro _
        exact ⟨rfl, rfl, rfl⟩
  · intro env dt R k i e hemis hlife hcr0 hcnt0 htot0 hdisp hR hdt
    obtain ⟨_, _, _, h4, h5, h6⟩ := rate_iter_invariant env dt R hR hdt k e i hemis hlife
      (Or.inr (le_of_eq hcr0)) hdisp (le_of_eq hcnt0.symm) (by rw [hcnt0]; norm_num)
    rw [hcnt0, htot0] at h6
    have h6' : ((emitterSteps env dt k (e, i)).1).particlesToEmit
        + (((emitterSteps env dt k (e, i)).1).totalParticlesEmitted : ℝ) = R * (k * dt) := by
      rw [h6]
      push_cast
      ring
    symm
    rw [Int.floor_eq_iff]
    constructor
    · linarith [h4, h6']
    · push_cast
      linarith [h5, h6']

/-- A fresh rate-mode emitter with fixed rate 3/2, used for the C4
witness. -/
def eRate : Emitter :=
  { position := ⟨0, 0⟩
    size := ⟨0, 0⟩
    lifespan := -1
    age := 0
    totalParticlesEmitted := 0
    options := { particles := tpl0, emission := .rate (.fixed (3 / 2)) }
    _disposed := false
    currentRate := 0
    lastRateChange := 0
    particlesToEmit := 0 }

/-- Witness for C4: a fresh fixed-rate-3/2 emitter driven for 2 updates of
dt = 1 has emitted exactly ⌊3⌋ = 3 particles. -/
theorem claim_C4_rate_accumulator_witness :
    ((emitterSteps env0 1 2 (eRate, 0)).1).totalParticlesEmitted = 3 := by
  have h := claim_C4_rate_accumulator.2 env0 1 (3 / 2) 2 0 eRate rfl rfl rfl rfl rfl rfl
    (by norm_num) (by norm_num)
  rw [h, show (3 / 2 : ℝ) * ((2 : ℕ) * 1) = ((3 : ℤ) : ℝ) by norm_num, Int.floor_intCast]

/-- A live burst emitter whose delay is unmet neither emits nor disposes:
the update only ages it. -/
theorem Emitter.update_burst_nodelay (env : Env) (e : Emitter) (dt : ℝ) (i : ℕ)
    (x : ℝ) (delay : Option ℝ)
    (hemis : e.options.emission = .burst (.fixed x) delay)
    (hlife : e.lifespan = -1)
    (hdel : ¬(delay = none ∨ delay = some 0 ∨ e.age + dt ≥ delay.getD 0)) :
    Emitter.update env e dt i = ({ e with age := e.age + dt }, [], i) := by
  simp only [Emitter.update, hemis]
  rw [if_neg (fun hc => hc.1 hlife), if_neg hdel]

/-- A live burst emitter whose resolved count is non-positive neither
emits nor disposes. -/
theorem Emitter.update_burst_zero (env : Env) (e : Emitter) (dt : ℝ) (i : ℕ)
    (x : ℝ) (delay : Option ℝ)
    (hemis : e.options.emission = .burst (.fixed x) delay)
    (hlife : e.lifespan = -1)
    (hn : ⌈x⌉ ≤ 0) :
    Emitter.update env e dt i = ({ e with age := e.age + dt }, [], i) := by
  simp only [Emitter.update, hemis]
  rw [if_neg (fun hc => hc.1 hlife)]
  by_cases hdel : (delay = none ∨ delay = some 0 ∨ e.age + dt ≥ delay.getD 0)
  · rw [if_pos hdel, if_neg (not_lt.mpr hn)]
  · rw [if_neg hdel]

/-- A live burst emitter whose delay has passed and whose resolved count
is positive emits that many particles and disposes immediately. -/
theorem Emitter.update_burst_emit (env : Env) (e : Emitter) (dt : ℝ) (i : ℕ)
    (x : ℝ) (delay : Option ℝ)
    (hemis : e.options.emission = .burst (.fixed x) delay)
    (hlife : e.lifespan = -1)
    (hdel : delay = none ∨ delay = some 0 ∨ e.age + dt ≥ delay.getD 0)
    (hn : 0 < ⌈x⌉) :
    Emitter.update env e dt i
      = (⟨e.position, e.size, e.lifespan, e.age + dt,
          e.totalParticlesEmitted + ⌈x⌉, e.options, true, e.currentRate,
          e.lastRateChange, e.particlesToEmit⟩,
         Emitter.emitParticles env { e with age := e.age + dt } (⌈x⌉).toNat 0 i) := by
  simp only [Emitter.update, hemis]
  rw [if_neg (fun hc => hc.1 hlife), if_pos hdel, if_pos hn]

/-- Invariant of iterated system-driven updates of a fixed-n burst
emitter: either it has never emitted (total 0) or it has emitted exactly
once (total ⌈n⌉) and is disposed. -/
theorem burst_iter_invariant (env : Env) (dt x : ℝ) (delay : Option ℝ) :
    ∀ (k : ℕ) (e : Emitter) (i : ℕ),
      e.options.emission = .burst (.fixed x) delay → e.lifespan = -1 →
      ((e.totalParticlesEmitted = 0 ∧ e._disposed = false) ∨
        (e.totalParticlesEmitted = ⌈x⌉ ∧ e._disposed = true)) →
      (((emitterSteps env dt k (e, i)).1).totalParticlesEmitted = 0
        ∧ ((emitterSteps env dt k (e, i)).1)._disposed = false) ∨
      (((emitterSteps env dt k (e, i)).1).totalParticlesEmitted = ⌈x⌉
        ∧ ((emitterSteps env dt k (e, i)).1)._disposed = true) := by
  intro k
  induction k with
  | zero =>
    intro e i _ _ hinv
    simpa only [emitterSteps] using hinv
  | succ k ih =>
    intro e i hemis hlife hinv
    rcases hinv with ⟨htot, hdisp⟩ | ⟨htot, hdisp⟩
    · have hstep : emitterSteps env dt (k + 1) (e, i)
          = emitterSteps env dt k ((Emitter.update env e dt i).1, (Emitter.update env e dt i).2.2) := by
        simp only [emitterSteps, guardedEmitterStep, Emitter.disposed, hdisp]
        rfl
      rw [hstep]
      by_cases hdel : (delay = none ∨ delay = some 0 ∨ e.age + dt ≥ delay.getD 0)
      · by_cases hn : 0 < ⌈x⌉
        · rw [Emitter.update_burst_emit env e dt i x delay hemis hlife hdel hn]
          dsimp only
          exact ih _ _ hemis hlife (Or.inr ⟨by rw [htot, zero_add], rfl⟩)
        · rw [Emitter.update_burst_zero env e dt i x delay hemis hlife (not_lt.mp hn)]
          dsimp only
          exact ih _ _ hemis hlife (Or.inl ⟨htot, hdisp⟩)
      · rw [Emitter.update_burst_nodelay env e dt i x delay hemis hlife hdel]
        dsimp only
        exact ih _ _ hemis hlife (Or.inl ⟨htot, hdisp⟩)
    · have hstep : emitterSteps env dt (k + 1) (e, i) = emitterSteps env dt k (e, i) := by
        simp only [emitterSteps, guardedEmitterStep, Emitter.disposed, hdisp, if_true]
      rw [hstep]
      exact ih e i hemis hlife (Or.inr ⟨htot, hdisp⟩)

/-- C5: a fixed-n burst emitter with an unmet (non-zero) delay, or with a
resolved count of zero, neither emits nor disposes on an update; on an
update where the delay has passed and the resolved count n = ⌈x⌉ is
positive, it emits exactly n particles and disposes immediately; and
across any number of system-driven updates it emits at most once. -/
theorem claim_C5_burst_once :
    (∀ (env : Env) (e : Emitter) (dt : ℝ) (i : ℕ) (x d : ℝ),
        e.options.emission = .burst (.fixed x) (some d) → e.lifespan = -1 →
        d ≠ 0 → e.age + dt < d →
        Emitter.update env e dt i = ({ e with age := e.age + dt }, [], i))
    ∧ (∀ (env : Env) (e : Emitter) (dt : ℝ) (i : ℕ) (x : ℝ) (delay : Option ℝ),
        e.options.emission = .burst (.fixed x) delay → e.lifespan = -1 →
        ⌈x⌉ = 0 →
        Emitter.update env e dt i = ({ e with age := e.age + dt }, [], i))
    ∧ (∀ (env : Env) (e : Emitter) (dt : ℝ) (i : ℕ) (x : ℝ) (delay : Option ℝ),
        e.options.emission = .burst (.fixed x) delay → e.lifespan = -1 →
        (delay = none ∨ delay = some 0 ∨ e.age + dt ≥ delay.getD 0) → 0 < ⌈x⌉ →
        ((Emitter.update env e dt i).1)._disposed = true
        ∧ (Emitter.update env e dt i).1.totalParticlesEmitted
            = e.totalParticlesEmitted + ⌈x⌉
        ∧ ((Emitter.update env e dt i).2.1).length = (⌈x⌉).toNat)
    ∧ (∀ (env : Env) (dt x : ℝ) (delay : Option ℝ) (k i : ℕ) (e : Emitter),
        e.options.emission = .burst (.fixed x) delay → e.lifespan = -1 →
        e.totalParticlesEmitted = 0 → e._disposed = false →
        ((emitterSteps env dt k (e, i)).1).totalParticlesEmitted = 0
        ∨ (((emitterSteps env dt k (e, i)).1).totalParticlesEmitted = ⌈x⌉
            ∧ ((emitterSteps env dt k (e, i)).1)._disposed = true)) := by
  refine ⟨?_, ?_, ?_, ?_⟩
  · intro env e dt i x d hemis hlife hd0 hage
    apply Emitter.update_burst_nodelay env e dt i x (some d) hemis hlife
    rintro (h | h | h)
    · exact Option.noConfusion h
    · exact hd0 (Option.some.inj h)
    · exact absurd h (not_le.mpr hage)
  · intro env e dt i x delay hemis hlife hn
    exact Emitter.update_burst_zero env e dt i x delay hemis hlife (le_of_eq hn)
  · intro env e dt i x delay hemis hlife hdel hn
    rw [Emitter.update_burst_emit env e dt i x delay hemis hlife hdel hn]
    exact ⟨rfl, rfl, Emitter.emitParticles_length env _ _ 0 i⟩
  · intro env dt x delay k i e hemis hlife htot hdisp
    rcases burst_iter_invariant env dt x delay k e i hemis hlife (Or.inl ⟨htot, hdisp⟩) with
      ⟨h1, _⟩ | h
    · exact Or.inl h1
    · exact Or.inr h

/-- A burst emitter with n = 1 and a 5-second delay. -/
def eBurstDelay : Emitter :=
  { position := ⟨0, 0⟩
    size := ⟨0, 0⟩
    lifespan := -1
    age := 0
    totalParticlesEmitted := 0
    options := { particles := tpl0, emission := .burst (.fixed 1) (some 5) }
    _disposed := false
    currentRate := 0
    lastRateChange := 0
    particlesToEmit := 0 }

/-- Witness for C5: the concrete delayed burst emitter only ages on an
early update; the concrete no-delay burst emitter emits its single
particle and disposes; and over 3 system-driven updates its total is
either 0 or exactly ⌈1⌉ with the emitter disposed. -/
theorem claim_C5_burst_once_witness :
    Emitter.update env0 eBurstDelay 1 0 = ({ eBurstDelay with age := eBurstDelay.age + 1 }, [], 0)
    ∧ ((Emitter.update env0 eBurst 1 0).1)._disposed = true
    ∧ (Emitter.update env0 eBurst 1 0).1.totalParticlesEmitted
        = eBurst.totalParticlesEmitted + ⌈(1 : ℝ)⌉
    ∧ (((emitterSteps env0 1 3 (eBurst, 0)).1).totalParticlesEmitted = 0
        ∨ (((emitterSteps env0 1 3 (eBurst, 0)).1).totalParticlesEmitted = ⌈(1 : ℝ)⌉
            ∧ ((emitterSteps env0 1 3 (eBurst, 0)).1)._disposed = true)) :=
  ⟨claim_C5_burst_once.1 env0 eBurstDelay 1 0 1 5 rfl rfl (by norm_num) (by norm_num [eBurstDelay]),
    (claim_C5_burst_once.2.2.1 env0 eBurst 1 0 1 none rfl rfl (Or.inl rfl) (by norm_num)).1,
    (claim_C5_burst_once.2.2.1 env0 eBurst 1 0 1 none rfl rfl (Or.inl rfl) (by norm_num)).2.1,
    claim_C5_burst_once.2.2.2 env0 1 1 none 3 0 eBurst rfl rfl rfl rfl⟩

end

end P2
